import Mathlib

/-!
Verification development for the `aws_finops_dashboard.helpers` module
(report-export pipeline: CSV/JSON/PDF serializers, local/S3 sink dispatch,
rich-markup stripping, config loading).

The Python source is shallowly embedded: pure formatting code becomes pure
Lean functions; filesystem / S3 / layout effects become explicit state passing
over a `World` record, with environmental failures described by an `Env`
record; Python exceptions become an explicit `Step` result that either holds
a value or a raised exception, so that the module's try/except boundaries can
be modelled faithfully.  Python floats that the source formats with `:.2f`
are modelled as exact rationals.
-/

/-! ## Basic text utilities (models of Python `str` formatting) -/

/-- Decimal digit character for `n < 10` (model of the digits of `str(int)`). -/
def digitChar (n : Nat) : Char := Char.ofNat (48 + n)

/-- Fuel-driven decimal rendering of a natural number, most significant digit
first.  Structural on the fuel so that the kernel can evaluate it. -/
def natToDecAux : Nat → Nat → List Char
  | 0, _ => []
  | fuel + 1, n => if n < 10 then [digitChar n] else natToDecAux fuel (n / 10) ++ [digitChar (n % 10)]

/-- Model of Python `str` on a non-negative integer. -/
def natToDec (n : Nat) : String := String.mk (natToDecAux (n + 1) n)

/-- Model of Python `str` on an integer. -/
def intToDec (n : Int) : String := (if n < 0 then "-" else "") ++ natToDec n.natAbs

/-- Two-digit zero padding, as in `%02d` / `strftime` fields. -/
def pad2 (n : Nat) : String := if n < 10 then "0" ++ natToDec n else natToDec n

/-- Four-digit zero padding for years. -/
def pad4 (n : Nat) : String :=
  if n < 10 then "000" ++ natToDec n
  else if n < 100 then "00" ++ natToDec n
  else if n < 1000 then "0" ++ natToDec n
  else natToDec n

/-- A wall-clock instant as read by `datetime.now()`. -/
structure DateTime where
  year : Nat
  month : Nat
  day : Nat
  hour : Nat
  minute : Nat
  second : Nat
deriving DecidableEq, Repr

/-- Model of `datetime.now().strftime("%Y%m%d_%H%M")`. -/
def strftimeCompact (t : DateTime) : String :=
  pad4 t.year ++ pad2 t.month ++ pad2 t.day ++ "_" ++ pad2 t.hour ++ pad2 t.minute

/-- Model of `f"{datetime.now():%Y-%m-%d %H:%M:%S}"`. -/
def strftimeFull (t : DateTime) : String :=
  pad4 t.year ++ "-" ++ pad2 t.month ++ "-" ++ pad2 t.day ++ " " ++
    pad2 t.hour ++ ":" ++ pad2 t.minute ++ ":" ++ pad2 t.second

example : natToDec 15050 = "15050" := by decide
example : strftimeCompact ⟨2025, 1, 1, 12, 0, 0⟩ = "20250101_1200" := by decide

/-! ## Path utilities (models of `os.path`) -/

/-- Whether a path is absolute (begins with a separator). -/
def isAbsPath (s : String) : Bool :=
  match s.data.head? with
  | some c => c = '/'
  | none => false

/-- Whether a string ends with a path separator. -/
def endsWithSlash (s : String) : Bool :=
  match s.data.getLast? with
  | some c => c = '/'
  | none => false

/-- Model of `os.path.join(a, b)` for the cases exercised by the module:
a later absolute component wins, otherwise a single separator is inserted
unless one is already present. -/
def osPathJoin (a b : String) : String :=
  if isAbsPath b then b
  else if a = "" then b
  else if endsWithSlash a then a ++ b
  else a ++ "/" ++ b

/-- Model of `os.path.abspath` relative to the working directory `cwd`
(normalisation of `.`/`..` segments is not modelled; the module never
produces them). -/
def osPathAbspath (cwd p : String) : String :=
  if isAbsPath p then p else osPathJoin cwd p

/-- Directory part of a path: everything before the last `/`, or `""` when the
path has no separator (model of `os.path.dirname`). -/
def dirNameChars (cs : List Char) : List Char :=
  match (cs.reverse.dropWhile (fun c => c ≠ '/')) with
  | [] => []
  | _ :: rest => rest.reverse

/-- Directory part of a path as a string. -/
def dirName (p : String) : String := String.mk (dirNameChars p.data)

/-- Split a character stream on path separators. -/
def splitSlash : List Char → List (List Char)
  | [] => [[]]
  | '/' :: rest => [] :: splitSlash rest
  | c :: rest =>
    match splitSlash rest with
    | l :: ls => (c :: l) :: ls
    | [] => [[c]]

/-- Join string pieces with a separator character. -/
def joinWith (sep : String) : List String → String
  | [] => ""
  | [s] => s
  | s :: rest => s ++ sep ++ joinWith sep rest

/-- All ancestor directories created by `os.makedirs(p)`: each non-empty
`/`-separated prefix of `p`, shortest first. -/
def pathPrefixes (p : String) : List String :=
  let parts := (splitSlash p.data).map String.mk
  ((List.range parts.length).map
    (fun i => joinWith "/" (parts.take (i + 1)))).filter (fun s => s ≠ "")

/-- Truthiness of an optional Python string: `None` and `""` are falsy. -/
def optStrTruthy : Option String → Bool
  | none => false
  | some s => s ≠ ""

/-- Model of `str.lstrip("/")`: remove all leading slashes. -/
def lstripSlashes (s : String) : String := String.mk (s.data.dropWhile (fun c => c = '/'))

example : osPathJoin "out" "a.csv" = "out/a.csv" := by decide
example : dirName "out/a.csv" = "out" := by decide
example : pathPrefixes "a/b/c" = ["a", "a/b", "a/b/c"] := by decide
example : pathPrefixes "/a/b" = ["/a", "/a/b"] := by decide

/-! ## CSV writer (model of Python `csv.writer` with default dialect) -/

/-- Whether `csv.writer` must quote a field under `QUOTE_MINIMAL`: it contains
the delimiter, the quote character, or a line-terminator character. -/
def csvNeedsQuote (f : String) : Bool :=
  f.data.any (fun c => c = ',' || c = '"' || c = '\r' || c = '\n')

/-- Double every quote character, as `csv.writer` does inside quoted fields. -/
def csvEscapeChars : List Char → List Char
  | [] => []
  | '"' :: rest => '"' :: '"' :: csvEscapeChars rest
  | c :: rest => c :: csvEscapeChars rest

/-- Encode one CSV field (quoting only when required, per `QUOTE_MINIMAL`). -/
def csvField (f : String) : String :=
  if csvNeedsQuote f then "\"" ++ String.mk (csvEscapeChars f.data) ++ "\"" else f

/-- Encode one CSV record (no terminator). -/
def csvRecord (fs : List String) : String := joinWith "," (fs.map csvField)

/-- Model of writing a sequence of rows with `csv.writer` into a `StringIO`
buffer: one `writerow` call per row, each record terminated by the default
`"\r\n"`. -/
def csvWriterContent : List (List String) → String
  | [] => ""
  | r :: rest => csvRecord r ++ "\r\n" ++ csvWriterContent rest

/-- Split a character stream on `"\r\n"` terminators (used to state how many
physical lines the CSV buffer holds). -/
def splitCRLF : List Char → List (List Char)
  | [] => [[]]
  | '\r' :: '\n' :: rest => [] :: splitCRLF rest
  | c :: rest =>
    match splitCRLF rest with
    | l :: ls => (c :: l) :: ls
    | [] => [[c]]

/-- Split a character stream on commas (used to state that the header line
carries exactly the seven titles). -/
def splitComma : List Char → List (List Char)
  | [] => [[]]
  | ',' :: rest => [] :: splitComma rest
  | c :: rest =>
    match splitComma rest with
    | l :: ls => (c :: l) :: ls
    | [] => [[c]]

/-! ## Audit rows -/

/-- An audit row as produced upstream: a Python `Dict[str, str]`, modelled as
an association list with unique keys looked up first-match. -/
structure AuditRow where
  fields : List (String × String)
deriving DecidableEq, Repr

/-- Model of `item.get(key, "")` on an audit row. -/
def AuditRow.get (r : AuditRow) (k : String) : String :=
  match r.fields.find? (fun kv => kv.1 = k) with
  | some kv => kv.2
  | none => ""

/-- Model of `row[key]`: raises `KeyError` when the key is absent. -/
def AuditRow.item (r : AuditRow) (k : String) : Except String String :=
  match r.fields.find? (fun kv => kv.1 = k) with
  | some kv => Except.ok kv.2
  | none => Except.error ("KeyError: " ++ k)

/-- The seven fixed CSV header titles, in order (source lines 225-233). -/
def auditHeaders : List String :=
  ["Profile", "Account ID", "Untagged Resources", "Stopped EC2 Instances",
   "Unused Volumes", "Unused EIPs", "Budget Alerts"]

/-- The seven row keys serialized per data line, in order (source lines 234-242). -/
def auditDataKeys : List String :=
  ["profile", "account_id", "untagged_resources", "stopped_instances",
   "unused_volumes", "unused_eips", "budget_alerts"]

/-- The CSV buffer built by `export_audit_report_to_csv` before any sink is
chosen (source lines 223-247). -/
def auditCsvContent (rows : List AuditRow) : String :=
  csvWriterContent (auditHeaders :: rows.map (fun r => auditDataKeys.map (fun k => r.get k)))

/-! ## Rich-markup stripping (`clean_rich_tags`, source lines 200-207) -/

/-- Whether a character may appear in a tag name, mirroring the character
class of the regex `\[/?[a-zA-Z0-9#_]*\]`. -/
def tagNameChar (c : Char) : Bool := c.isAlphanum || c = '#' || c = '_'

/-- Attempt to match the remainder of one tag (after an opening `[`):
an optional `/`, a greedy run of name characters, then `]`.  Returns the
characters following the closing bracket on success.  (Greediness is
deterministic here: `/` and `]` are not name characters, so no backtracking
point exists.) -/
def matchTag (cs : List Char) : Option (List Char) :=
  let cs1 := match cs with
    | c :: rest => if c = '/' then rest else c :: rest
    | [] => []
  match cs1.dropWhile tagNameChar with
  | c :: r => if c = ']' then some r else none
  | [] => none

/-- One left-to-right pass deleting non-overlapping tag matches, exactly as
`re.sub` does.  Fuel-driven so the kernel can evaluate it; each step consumes
at least one character, so `length + 1` fuel always suffices. -/
def cleanAux : Nat → List Char → List Char
  | 0, cs => cs
  | _ + 1, [] => []
  | fuel + 1, c :: rest =>
    if c = '[' then
      match matchTag rest with
      | some rest1 => cleanAux fuel rest1
      | none => c :: cleanAux fuel rest
    else c :: cleanAux fuel rest

/-- Model of `clean_rich_tags`: `re.sub(r"\[/?[a-zA-Z0-9#_]*\]", "", text)`. -/
def clean_rich_tags (text : String) : String :=
  String.mk (cleanAux (text.data.length + 1) text.data)

/-- Whether the stream begins with a markup tag (the pattern the filter
itself targets). -/
def startsWithTag : List Char → Bool
  | [] => false
  | c :: rest => c = '[' && (matchTag rest).isSome

/-- Whether the stream contains a markup tag anywhere. -/
def containsTag : List Char → Bool
  | [] => false
  | c :: rest => startsWithTag (c :: rest) || containsTag rest

example : clean_rich_tags ("[bold]Error[/]") = "Error" := by decide
example : clean_rich_tags ("[bold red]Error[/]") = "[bold red]Error" := by decide
example : clean_rich_tags ("[[a]b]") = "[b]" := by decide
example : containsTag ("[b]").data = true := by decide

/-! ## PDF document model

ReportLab flowables are modelled as an inductive of block elements; the visual
styling (column widths, colors, fonts) carries no data relevant to the claims
and is omitted, while every text payload is kept verbatim. -/

/-- A block element of the composed PDF document. -/
inductive Flowable where
  | title (s : String)
  | para (s : String)
  | headerCard (s : String)
  | spacer (w h : Nat)
  | miniHeader (s : String)
  | bulletList (items : List String)
  | keyValueTable (rows : List (String × String))
deriving DecidableEq, Repr

/-- Split on newline or comma delimiters. -/
def splitItemChars : List Char → List (List Char)
  | [] => [[]]
  | '\n' :: rest => [] :: splitItemChars rest
  | ',' :: rest => [] :: splitItemChars rest
  | c :: rest =>
    match splitItemChars rest with
    | l :: ls => (c :: l) :: ls
    | [] => [[c]]

/-- Modelled from the spec: `split_to_items` lives in
`aws_finops_dashboard.pdf_utils`, which is not part of the given sources.
Per the spec (section 4.4), each audit list is "obtained by splitting the
row's delimited text field into separate bullet items, dropping empty items",
the fields being "conventionally a newline- or comma-separated list". -/
def split_to_items (s : String) : List String :=
  (((splitItemChars s.data).map
      (fun cs => ((cs.dropWhile (fun c => c = ' ')).reverse.dropWhile (fun c => c = ' ')).reverse)).filter
    (fun cs => cs ≠ [])).map String.mk

/-- The five labelled audit sections of one report row (source lines 158-164). -/
def auditSections (row : AuditRow) : List (String × List String) :=
  [("Untagged Resources", split_to_items (row.get ("untagged_resources"))),
   ("Stopped EC2 Instances", split_to_items (row.get ("stopped_instances"))),
   ("Unused Volumes", split_to_items (row.get ("unused_volumes"))),
   ("Unused EIPs", split_to_items (row.get ("unused_eips"))),
   ("Budget Alerts", split_to_items (row.get ("budget_alerts")))]

/-- Python exceptions relevant to the module, carrying their message. -/
inductive PyExn where
  | fileNotFound (msg : String)
  | osError (msg : String)
  | keyError (msg : String)
  | layoutError (msg : String)
  | tomlDecodeError (msg : String)
  | yamlError (msg : String)
  | jsonDecodeError (msg : String)
  | attributeError (msg : String)
deriving DecidableEq, Repr

/-- Model of Python `str(e)` on an exception. -/
def PyExn.str : PyExn → String
  | PyExn.fileNotFound m => m
  | PyExn.osError m => m
  | PyExn.keyError m => m
  | PyExn.layoutError m => m
  | PyExn.tomlDecodeError m => m
  | PyExn.yamlError m => m
  | PyExn.jsonDecodeError m => m
  | PyExn.attributeError m => m

/-- Elements of one audit row: header card, then the five sections, each a
mini header, a bulleted list and a spacer (source lines 138-169).  Accessing
`row['profile']` / `row['account_id']` may raise `KeyError`. -/
def auditRowElements (row : AuditRow) : Except PyExn (List Flowable) := do
  let p ← match row.item ("profile") with
    | Except.ok v => Except.ok v
    | Except.error e => Except.error (PyExn.keyError e)
  let a ← match row.item ("account_id") with
    | Except.ok v => Except.ok v
    | Except.error e => Except.error (PyExn.keyError e)
  Except.ok
    ([Flowable.headerCard ("<b>Profile:</b> " ++ p ++ "  &nbsp;&nbsp;&nbsp; <b>Account:</b> " ++ a),
      Flowable.spacer 1 6] ++
     ((auditSections row).map
       (fun s => [Flowable.miniHeader s.1, Flowable.bulletList s.2, Flowable.spacer 1 6])).flatten)

/-- Elements of all audit rows with the between-row spacer added when the row
is not the last (source lines 171-172). -/
def auditRowsElements : List AuditRow → Except PyExn (List Flowable)
  | [] => Except.ok []
  | [r] => auditRowElements r
  | r :: r2 :: rest => do
    let e ← auditRowElements r
    let es ← auditRowsElements (r2 :: rest)
    Except.ok (e ++ [Flowable.spacer 1 10] ++ es)

/-- The fixed audit-report disclaimer line (source line 175). -/
def auditFooterNote : String := "Note: This report lists untagged EC2, RDS, Lambda, ELBv2 only."

/-- The complete flowable sequence of the audit PDF (source lines 134-178). -/
def auditElements (now : DateTime) (rows : List AuditRow) : Except PyExn (List Flowable) := do
  let body ← auditRowsElements rows
  Except.ok
    ([Flowable.title ("AWS FinOps Dashboard (Audit Report)"), Flowable.spacer 1 8] ++ body ++
     [Flowable.spacer 1 8, Flowable.para auditFooterNote,
      Flowable.para ("This audit report is generated using AWS FinOps Dashboard (CLI) © 2025 on "
        ++ strftimeFull now)])

/-! ## Cost dashboard rows and currency formatting -/

/-- A cost/profile summary row (`ProfileData`).  The two monetary amounts are
Python floats formatted with `:.2f`; they are modelled as exact rationals. -/
structure ProfileData where
  profile : String
  account_id : String
  last_month : ℚ
  current_month : ℚ
  service_costs : List (String × ℚ)
  budget_info : List String
  ec2_summary : List (String × Nat)

/-- Round a rational to integer cents with round-half-to-even tie behaviour,
modelling the decimal rounding performed by `f"{x:.2f}"`. -/
def roundCentsHE (q : ℚ) : Int :=
  let x := q * 100
  let f := ⌊x⌋
  if x - (f : ℚ) < 1/2 then f
  else if (1/2 : ℚ) < x - (f : ℚ) then f + 1
  else if f % 2 = 0 then f else f + 1

/-- Model of `f"{x:.2f}"`: the amount with exactly two digits after the
decimal point. -/
def fmtCurrency2 (q : ℚ) : String :=
  let n := roundCentsHE q
  (if n < 0 then "-" else "") ++ natToDec (n.natAbs / 100) ++ "." ++ pad2 (n.natAbs % 100)

/-- Modelled from the spec: `formatServicesForList` lives in
`aws_finops_dashboard.pdf_utils`, which is not part of the given sources.
Per the spec (section 4.4) the service list renders "one bullet per service,
cost formatted to two decimals, insertion-ordered". -/
def formatServicesForList (l : List (String × ℚ)) : List String :=
  l.map (fun p => p.1 ++ ": $" ++ fmtCurrency2 p.2)

/-- The "EC2 Instances" bullet items: one `<state>: <count>` entry per state
with positive count, with the `or ["No instances"]` fallback of source
line 431. -/
def ec2SummaryItems (m : List (String × Nat)) : List String :=
  match (m.filter (fun p => 0 < p.2)).map (fun p => p.1 ++ ": " ++ natToDec p.2) with
  | [] => ["No instances"]
  | l => l

/-- The "Budget Status" bullet items with the truthiness fallback of source
line 426. -/
def budgetItems (l : List String) : List String :=
  match l with
  | [] => ["No budgets"]
  | bs => bs

/-- Elements of one cost row: header card, key/value cost table, and the three
bulleted sections (source lines 395-432). -/
def costRowElements (row : ProfileData) : List Flowable :=
  [Flowable.headerCard ("<b>Profile:</b> " ++ row.profile ++ "  &nbsp;&nbsp;&nbsp; <b>Account:</b> " ++ row.account_id),
   Flowable.spacer 1 6,
   Flowable.keyValueTable
     [("Previous Period Cost", "<b>$" ++ fmtCurrency2 row.last_month ++ "</b>"),
      ("Current Period Cost", "<b>$" ++ fmtCurrency2 row.current_month ++ "</b>")],
   Flowable.spacer 1 6,
   Flowable.miniHeader ("Cost By Service"),
   Flowable.bulletList (formatServicesForList row.service_costs),
   Flowable.spacer 1 6,
   Flowable.miniHeader ("Budget Status"),
   Flowable.bulletList (budgetItems row.budget_info),
   Flowable.spacer 1 6,
   Flowable.miniHeader ("EC2 Instances"),
   Flowable.bulletList (ec2SummaryItems row.ec2_summary)]

/-- Elements of all cost rows with the between-row spacer added when the row
is not the last (source lines 434-435). -/
def costRowsJoined : List ProfileData → List Flowable
  | [] => []
  | [r] => costRowElements r
  | r :: r2 :: rest => costRowElements r ++ [Flowable.spacer 1 14] ++ costRowsJoined (r2 :: rest)

/-- The complete flowable sequence of the cost PDF (source lines 388-439). -/
def costElements (data : List ProfileData) (previous_period_dates current_period_dates : String)
    (now : DateTime) : List Flowable :=
  [Flowable.title ("AWS FinOps Dashboard (Cost Report)"), Flowable.spacer 1 10,
   Flowable.para ("<b>Previous Period:</b> " ++ previous_period_dates ++
     "<br/><b>Current Period:</b> " ++ current_period_dates),
   Flowable.spacer 1 6] ++ costRowsJoined data ++
  [Flowable.spacer 1 8,
   Flowable.para ("This report is generated using AWS FinOps Dashboard (CLI) © 2025 on "
     ++ strftimeFull now)]

/-! ## JSON values and the `json.dumps(..., indent=4)` serializer

JSON-serializable Python data is modelled by a mutual inductive of JSON
values (numbers restricted to integers: the audit/trend rows hold strings and
integers; floats are outside the shallow embedding).  The serializer mirrors
`json.dumps` with `indent=4` and its default `ensure_ascii=True` escaping. -/

mutual
inductive JVal where
  | jnull : JVal
  | jbool : Bool → JVal
  | jint : Int → JVal
  | jstr : String → JVal
  | jarr : JList → JVal
  | jobj : JObj → JVal

inductive JList where
  | lnil : JList
  | lcons : JVal → JList → JList

inductive JObj where
  | onil : JObj
  | ocons : String → JVal → JObj → JObj
end

/-- Whether an object carries a binding for key `k`. -/
def JObj.hasKey : JObj → String → Bool
  | JObj.onil, _ => false
  | JObj.ocons k1 _ rest, k => k1 = k || JObj.hasKey rest k

mutual
/-- Well-formedness: every object along the structure has pairwise distinct
keys, as is forced for data originating from Python dicts. -/
def JVal.wf : JVal → Bool
  | JVal.jnull => true
  | JVal.jbool _ => true
  | JVal.jint _ => true
  | JVal.jstr _ => true
  | JVal.jarr xs => JList.wfL xs
  | JVal.jobj kvs => JObj.wfO kvs

def JList.wfL : JList → Bool
  | JList.lnil => true
  | JList.lcons x xs => JVal.wf x && JList.wfL xs

def JObj.wfO : JObj → Bool
  | JObj.onil => true
  | JObj.ocons k v kvs => (JObj.hasKey kvs k = false) && JVal.wf v && JObj.wfO kvs
end

/-- Lowercase hexadecimal digit. -/
def hexDigitChar (n : Nat) : Char := if n < 10 then digitChar n else Char.ofNat (97 + (n - 10))

/-- Four lowercase hex digits of `n < 0x10000`. -/
def hex4 (n : Nat) : List Char :=
  [hexDigitChar (n / 4096 % 16), hexDigitChar (n / 256 % 16), hexDigitChar (n / 16 % 16), hexDigitChar (n % 16)]

/-- A `\uXXXX` escape. -/
def uEsc (n : Nat) : List Char := '\\' :: 'u' :: hex4 n

/-- Escape one character as `json.dumps` does with `ensure_ascii=True`:
printable ASCII except quote and backslash is literal, the short escapes are
used where Python uses them, all other characters become `\uXXXX` (with a
surrogate pair above the BMP). -/
def escapeChar (c : Char) : List Char :=
  if c = '"' then ['\\', '"']
  else if c = '\\' then ['\\', '\\']
  else if c = '\n' then ['\\', 'n']
  else if c = '\t' then ['\\', 't']
  else if c = '\r' then ['\\', 'r']
  else if c.toNat = 8 then ['\\', 'b']
  else if c.toNat = 12 then ['\\', 'f']
  else if c.toNat < 32 ∨ 127 ≤ c.toNat then
    if c.toNat < 65536 then uEsc c.toNat
    else uEsc (55296 + (c.toNat - 65536) / 1024) ++ uEsc (56320 + (c.toNat - 65536) % 1024)
  else [c]

/-- Serialize a string literal with quotes and escaping. -/
def jstrQuote (s : String) : String := "\"" ++ String.mk ((s.data.map escapeChar).flatten) ++ "\""

/-- `n` spaces of indentation. -/
def spaces (n : Nat) : String := String.mk (List.replicate n ' ')

mutual
/-- Serialize a JSON value at nesting depth `d`, as `json.dumps(x, indent=4)`
lays it out. -/
def jser : JVal → Nat → String
  | JVal.jnull, _ => "null"
  | JVal.jbool true, _ => "true"
  | JVal.jbool false, _ => "false"
  | JVal.jint n, _ => intToDec n
  | JVal.jstr s, _ => jstrQuote s
  | JVal.jarr JList.lnil, _ => "[]"
  | JVal.jarr (JList.lcons x xs), d =>
    "[\n" ++ spaces (4 * (d + 1)) ++ jser x (d + 1) ++ jserArrRest xs (d + 1) ++
      "\n" ++ spaces (4 * d) ++ "]"
  | JVal.jobj JObj.onil, _ => "\x7b\x7d"
  | JVal.jobj (JObj.ocons k v kvs), d =>
    "\x7b\n" ++ spaces (4 * (d + 1)) ++ jstrQuote k ++ ": " ++ jser v (d + 1) ++
      jserObjRest kvs (d + 1) ++ "\n" ++ spaces (4 * d) ++ "\x7d"

/-- Serialize the remaining array items at depth `d`. -/
def jserArrRest : JList → Nat → String
  | JList.lnil, _ => ""
  | JList.lcons x xs, d => ",\n" ++ spaces (4 * d) ++ jser x d ++ jserArrRest xs d

/-- Serialize the remaining object items at depth `d`. -/
def jserObjRest : JObj → Nat → String
  | JObj.onil, _ => ""
  | JObj.ocons k v kvs, d => ",\n" ++ spaces (4 * d) ++ jstrQuote k ++ ": " ++ jser v d ++ jserObjRest kvs d
end

/-- Model of `json.dumps(x, indent=4)`. -/
def jdumps (v : JVal) : String := jser v 0

/-! ## Effect model: environment, world state, and raised exceptions

`Env` fixes the behaviour of everything outside the module (clock, working
directory, filesystem faults, S3 outcomes, parser outcomes, availability of
`tomllib`); `World` is the mutable state the module can observe or change
(created directories, written files, uploaded objects, console output).
`Step` is the result of running a code block: a value or a raised exception,
each with the world at that point, mirroring that Python state changes made
before an exception persist. -/

/-- Outcome of `s3_client.put_object` for a given bucket and key. -/
inductive PutOutcome where
  | ok
  | clientError (msg : String)
  | otherError (msg : String)
deriving DecidableEq, Repr

/-- Outcome of parsing an existing config file with one format's parser. -/
inductive ParseOutcome where
  | decodeError (msg : String)
  | topDict
  | topNonDict
deriving DecidableEq, Repr

/-- What opening and parsing a config file path yields. -/
inductive ConfigRead where
  | missing
  | openErr (msg : String)
  | readable (toml yaml json : ParseOutcome)
deriving DecidableEq, Repr

/-- The behaviour of the module's collaborators during one call. -/
structure Env where
  now : DateTime
  cwd : String
  makedirsFails : String → Bool
  openWriteFails : String → Bool
  docBuildFails : Bool
  putOutcome : String → String → PutOutcome
  tomllibAvailable : Bool
  configFiles : String → ConfigRead

/-- The content written to a sink: a text buffer, or a built PDF document
identified by its flowable sequence. -/
inductive Content where
  | text (s : String)
  | pdf (els : List Flowable)
deriving DecidableEq, Repr

/-- Observable state: directories that exist, files on disk, successful S3
puts (bucket, key, content, content type), and console output. -/
structure World where
  dirs : List String
  files : List (String × Content)
  puts : List (String × String × Content × Option String)
  console : List String
deriving DecidableEq, Repr

/-- Result of executing a block: a value, or a raised exception, together
with the world reached. -/
inductive Step (α : Type) where
  | ok : α → World → Step α
  | raised : PyExn → World → Step α
deriving DecidableEq, Repr

/-- Append a console diagnostic (model of `console.print`). -/
def consolePrint (w : World) (m : String) : World := { w with console := w.console ++ [m] }

/-- Model of `os.makedirs(p, exist_ok=True)`: creates `p` and all its parents
idempotently; raises only when the environment injects a fault. -/
def osMakedirs (env : Env) (w : World) (p : String) : Step Unit :=
  if env.makedirsFails p then Step.raised (PyExn.osError ("makedirs failed: " ++ p)) w
  else Step.ok () { w with dirs := w.dirs ++ (pathPrefixes p).filter (fun d => ¬ w.dirs.contains d) }

/-- Whether the parent directory of `p` exists in the world (a path without a
separator lives in the working directory, which always exists). -/
def parentExists (w : World) (p : String) : Bool :=
  dirName p = "" || w.dirs.contains (dirName p)

/-- Model of `open(p, "w")` followed by a full write: raises `FileNotFoundError`
when the parent directory does not exist, an `OSError` when the environment
injects a write fault, and otherwise replaces the file's content. -/
def openAndWrite (env : Env) (w : World) (p : String) (c : Content) : Step Unit :=
  if parentExists w p = false then
    Step.raised (PyExn.fileNotFound ("No such file or directory: " ++ p)) w
  else if env.openWriteFails p then
    Step.raised (PyExn.osError ("write failed: " ++ p)) w
  else Step.ok () { w with files := w.files.filter (fun f => f.1 ≠ p) ++ [(p, c)] }

/-- Model of `doc.build(elements)` on a document targeting a file path: a
layout fault raises, otherwise the rendered document is written to the path. -/
def docBuildFile (env : Env) (w : World) (p : String) (els : List Flowable) : Step Unit :=
  if env.docBuildFails then Step.raised (PyExn.layoutError "doc.build failed") w
  else openAndWrite env w p (Content.pdf els)

/-- Whether a string ends with the given suffix (kernel-evaluable model of
`str.endswith`). -/
def strEndsWith (s suffix : String) : Bool := suffix.data.isSuffixOf s.data

/-- Model of `upload_to_s3` (source lines 60-93), including its internal
try/except: infer the content type from the key's extension when none is
given, attempt the put, and convert any storage error into a diagnostic plus
a `None` result. -/
def upload_to_s3 (env : Env) (w : World) (content : Content) (bucket key : String)
    (content_type : Option String) : Option String × World :=
  let ct := if optStrTruthy content_type then content_type
    else if strEndsWith key (".pdf") then some "application/pdf"
    else if strEndsWith key (".csv") then some "text/csv"
    else if strEndsWith key (".json") then some "application/json"
    else content_type
  match env.putOutcome bucket key with
  | PutOutcome.ok =>
    (some ("s3://" ++ bucket ++ "/" ++ key), { w with puts := w.puts ++ [(bucket, key, content, ct)] })
  | PutOutcome.clientError m => (none, consolePrint w ("[bold red]Error uploading to S3: " ++ m ++ "[/]"))
  | PutOutcome.otherError m => (none, consolePrint w ("[bold red]Error uploading to S3: " ++ m ++ "[/]"))

/-- The S3 object key built by every export function (source lines 184-185,
250-251, 288-289, 325-326, 446-447): prefix-joined then stripped of leading
slashes.  `pfx` models the `s3_prefix` argument. -/
def s3KeyFor (pfx : Option String) (base_filename : String) : String :=
  lstripSlashes (if optStrTruthy pfx then (pfx.getD "") ++ "/" ++ base_filename else base_filename)

/-! ## The export operations and the config loader -/

/-- Body of `export_audit_report_to_pdf` (source lines 95-193), before the
surrounding try/except.  `pfx` models the `s3_prefix` argument and `session`
the truthiness of the boto3 session argument. -/
def exportAuditPdfBody (env : Env) (w : World) (audit_data_list : List AuditRow)
    (file_name : String) (path : Option String) (s3_bucket : Option String)
    (pfx : Option String) (session : Bool) : Step (Option String) :=
  let base_filename := file_name ++ "_" ++ strftimeCompact env.now ++ ".pdf"
  let output_filename := if optStrTruthy path then osPathJoin (path.getD "") base_filename else base_filename
  match auditElements env.now audit_data_list with
  | Except.error e => Step.raised e w
  | Except.ok els =>
    if optStrTruthy s3_bucket && session then
      if env.docBuildFails then Step.raised (PyExn.layoutError "doc.build failed") w
      else
        match upload_to_s3 env w (Content.pdf els) (s3_bucket.getD "") (s3KeyFor pfx base_filename)
            (some "application/pdf") with
        | (some p, w1) =>
          Step.ok (some p) (consolePrint w1 ("[bright_green]Successfully exported to S3: " ++ p ++ "[/]"))
        | (none, w1) => Step.ok none w1
    else
      match docBuildFile env w output_filename els with
      | Step.raised e w1 => Step.raised e w1
      | Step.ok _ w1 => Step.ok (some (osPathAbspath env.cwd output_filename)) w1

/-- Model of `export_audit_report_to_pdf` with its boundary try/except
(source lines 195-197). -/
def export_audit_report_to_pdf (env : Env) (w : World) (audit_data_list : List AuditRow)
    (file_name : String) (path : Option String) (s3_bucket : Option String)
    (pfx : Option String) (session : Bool) : Option String × World :=
  match exportAuditPdfBody env w audit_data_list file_name path s3_bucket pfx session with
  | Step.ok r w1 => (r, w1)
  | Step.raised e w1 =>
    (none, consolePrint w1 ("[bold red]Error exporting audit report to PDF: " ++ e.str ++ "[/]"))

/-- Body of `export_audit_report_to_csv` (source lines 210-267), before the
surrounding try/except. -/
def exportAuditCsvBody (env : Env) (w : World) (audit_data_list : List AuditRow)
    (file_name : String) (path : Option String) (s3_bucket : Option String)
    (pfx : Option String) (session : Bool) : Step (Option String) :=
  let base_filename := file_name ++ "_" ++ strftimeCompact env.now ++ ".csv"
  let csv_content := auditCsvContent audit_data_list
  if optStrTruthy s3_bucket && session then
    match upload_to_s3 env w (Content.text csv_content) (s3_bucket.getD "") (s3KeyFor pfx base_filename)
        (some "text/csv") with
    | (some p, w1) =>
      Step.ok (some p) (consolePrint w1 ("[bright_green]Successfully exported to S3: " ++ p ++ "[/]"))
    | (none, w1) => Step.ok none w1
  else
    if optStrTruthy path then
      match osMakedirs env w (path.getD "") with
      | Step.raised e w1 => Step.raised e w1
      | Step.ok _ w1 =>
        let output_filename := osPathJoin (path.getD "") base_filename
        match openAndWrite env w1 output_filename (Content.text csv_content) with
        | Step.raised e w2 => Step.raised e w2
        | Step.ok _ w2 => Step.ok (some output_filename) w2
    else
      match openAndWrite env w base_filename (Content.text csv_content) with
      | Step.raised e w1 => Step.raised e w1
      | Step.ok _ w1 => Step.ok (some base_filename) w1

/-- Model of `export_audit_report_to_csv` with its boundary try/except
(source lines 268-270). -/
def export_audit_report_to_csv (env : Env) (w : World) (audit_data_list : List AuditRow)
    (file_name : String) (path : Option String) (s3_bucket : Option String)
    (pfx : Option String) (session : Bool) : Option String × World :=
  match exportAuditCsvBody env w audit_data_list file_name path s3_bucket pfx session with
  | Step.ok r w1 => (r, w1)
  | Step.raised e w1 =>
    (none, consolePrint w1 ("[bold red]Error exporting audit report to CSV: " ++ e.str ++ "[/]"))

/-- Body shared by the two JSON exports (source lines 281-304 and 318-341):
serialize with `json.dumps(..., indent=4)`, then dispatch to S3 or the local
filesystem. -/
def exportJsonBody (env : Env) (w : World) (data : JList) (ext : String)
    (file_name : String) (path : Option String) (s3_bucket : Option String)
    (pfx : Option String) (session : Bool) : Step (Option String) :=
  let base_filename := file_name ++ "_" ++ strftimeCompact env.now ++ ext
  let json_content := jdumps (JVal.jarr data)
  if optStrTruthy s3_bucket && session then
    match upload_to_s3 env w (Content.text json_content) (s3_bucket.getD "") (s3KeyFor pfx base_filename)
        (some "application/json") with
    | (some p, w1) =>
      Step.ok (some p) (consolePrint w1 ("[bright_green]Successfully exported to S3: " ++ p ++ "[/]"))
    | (none, w1) => Step.ok none w1
  else
    if optStrTruthy path then
      match osMakedirs env w (path.getD "") with
      | Step.raised e w1 => Step.raised e w1
      | Step.ok _ w1 =>
        let output_filename := osPathJoin (path.getD "") base_filename
        match openAndWrite env w1 output_filename (Content.text json_content) with
        | Step.raised e w2 => Step.raised e w2
        | Step.ok _ w2 => Step.ok (some output_filename) w2
    else
      match openAndWrite env w base_filename (Content.text json_content) with
      | Step.raised e w1 => Step.raised e w1
      | Step.ok _ w1 => Step.ok (some base_filename) w1

/-- Model of `export_audit_report_to_json` (source lines 272-307). -/
def export_audit_report_to_json (env : Env) (w : World) (raw_audit_data : JList)
    (file_name : String) (path : Option String) (s3_bucket : Option String)
    (pfx : Option String) (session : Bool) : Option String × World :=
  match exportJsonBody env w raw_audit_data (".json") file_name path s3_bucket pfx session with
  | Step.ok r w1 => (r, w1)
  | Step.raised e w1 =>
    (none, consolePrint w1 ("[bold red]Error exporting audit report to JSON: " ++ e.str ++ "[/]"))

/-- Model of `export_trend_data_to_json` (source lines 309-344). -/
def export_trend_data_to_json (env : Env) (w : World) (trend_data : JList)
    (file_name : String) (path : Option String) (s3_bucket : Option String)
    (pfx : Option String) (session : Bool) : Option String × World :=
  match exportJsonBody env w trend_data (".json") file_name path s3_bucket pfx session with
  | Step.ok r w1 => (r, w1)
  | Step.raised e w1 =>
    (none, consolePrint w1 ("[bold red]Error exporting trend data to JSON: " ++ e.str ++ "[/]"))

/-- Body of `export_cost_dashboard_to_pdf` (source lines 346-455), before the
surrounding try/except.  Unlike the audit-PDF local branch, this one does call
`os.makedirs` (source lines 372-373). -/
def exportCostPdfBody (env : Env) (w : World) (data : List ProfileData)
    (filename : String) (output_dir : Option String)
    (previous_period_dates current_period_dates : String) (s3_bucket : Option String)
    (pfx : Option String) (session : Bool) : Step (Option String) :=
  let base_filename := filename ++ "_" ++ strftimeCompact env.now ++ ".pdf"
  let els := costElements data previous_period_dates current_period_dates env.now
  if optStrTruthy s3_bucket && session then
    if env.docBuildFails then Step.raised (PyExn.layoutError "doc.build failed") w
    else
      match upload_to_s3 env w (Content.pdf els) (s3_bucket.getD "") (s3KeyFor pfx base_filename)
          (some "application/pdf") with
      | (some p, w1) =>
        Step.ok (some p) (consolePrint w1 ("[bright_green]Successfully exported to S3: " ++ p ++ "[/]"))
      | (none, w1) => Step.ok none w1
  else
    if optStrTruthy output_dir then
      match osMakedirs env w (output_dir.getD "") with
      | Step.raised e w1 => Step.raised e w1
      | Step.ok _ w1 =>
        let output_filename := osPathJoin (output_dir.getD "") base_filename
        match docBuildFile env w1 output_filename els with
        | Step.raised e w2 => Step.raised e w2
        | Step.ok _ w2 => Step.ok (some (osPathAbspath env.cwd output_filename)) w2
    else
      match docBuildFile env w base_filename els with
      | Step.raised e w1 => Step.raised e w1
      | Step.ok _ w1 => Step.ok (some (osPathAbspath env.cwd base_filename)) w1

/-- Model of `export_cost_dashboard_to_pdf` with its boundary try/except
(source lines 456-458). -/
def export_cost_dashboard_to_pdf (env : Env) (w : World) (data : List ProfileData)
    (filename : String) (output_dir : Option String)
    (previous_period_dates current_period_dates : String) (s3_bucket : Option String)
    (pfx : Option String) (session : Bool) : Option String × World :=
  match exportCostPdfBody env w data filename output_dir previous_period_dates
      current_period_dates s3_bucket pfx session with
  | Step.ok r w1 => (r, w1)
  | Step.raised e w1 =>
    (none, consolePrint w1 ("[bold red]Error exporting to PDF: " ++ e.str ++ "[/]"))

/-! ## Config loader (`load_config_file`, source lines 461-516) -/

/-- The final path component. -/
def afterLastSlash (cs : List Char) : List Char :=
  (cs.reverse.takeWhile (fun c => c ≠ '/')).reverse

/-- Model of the extension produced by `os.path.splitext`: the suffix from the
last dot of the final component, where leading dots of the component do not
begin an extension. -/
def extOf (p : String) : String :=
  let base := afterLastSlash p.data
  let nm := base.dropWhile (fun c => c = '.')
  let revTake := nm.reverse.takeWhile (fun c => c ≠ '.')
  if revTake.length = nm.length then "" else String.mk ('.' :: revTake.reverse)

/-- ASCII lowercasing of one character (model of `str.lower` on extensions). -/
def lowerChar (c : Char) : Char :=
  if 65 ≤ c.toNat ∧ c.toNat ≤ 90 then Char.ofNat (c.toNat + 32) else c

/-- ASCII lowercasing of a string. -/
def strLower (s : String) : String := String.mk (s.data.map lowerChar)

example : strLower (extOf "dir/config.YAML") = ".yaml" := by decide
example : extOf "no_extension" = "" := by decide
example : extOf ".bashrc" = "" := by decide

/-- Body of `load_config_file` inside the `try` (source lines 466-501): open
the file, dispatch on the lowercased extension, and require the decoded top
level to be a dictionary.  The returned payload is opaque (`Unit`): no claim
inspects the loaded mapping. -/
def loadConfigBody (env : Env) (w : World) (file_path : String) : Step (Option Unit) :=
  let ext := strLower (extOf file_path)
  match env.configFiles file_path with
  | ConfigRead.missing => Step.raised (PyExn.fileNotFound file_path) w
  | ConfigRead.openErr m => Step.raised (PyExn.osError m) w
  | ConfigRead.readable toml yaml json =>
    if ext = ".toml" then
      if env.tomllibAvailable = false then
        Step.ok none (consolePrint w ("[bold red]Error: TOML library (tomli) not installed for Python < 3.11. Please install it.[/]"))
      else
        match toml with
        | ParseOutcome.decodeError m => Step.raised (PyExn.tomlDecodeError m) w
        | ParseOutcome.topDict => Step.ok (some ()) w
        | ParseOutcome.topNonDict =>
          Step.ok none (consolePrint w ("[bold red]Error: TOML file " ++ file_path ++ " did not load as a dictionary.[/]"))
    else if ext = ".yaml" ∨ ext = ".yml" then
      match yaml with
      | ParseOutcome.decodeError m => Step.raised (PyExn.yamlError m) w
      | ParseOutcome.topDict => Step.ok (some ()) w
      | ParseOutcome.topNonDict =>
        Step.ok none (consolePrint w ("[bold red]Error: YAML file " ++ file_path ++ " did not load as a dictionary.[/]"))
    else if ext = ".json" then
      match json with
      | ParseOutcome.decodeError m => Step.raised (PyExn.jsonDecodeError m) w
      | ParseOutcome.topDict => Step.ok (some ()) w
      | ParseOutcome.topNonDict =>
        Step.ok none (consolePrint w ("[bold red]Error: JSON file " ++ file_path ++ " did not load as a dictionary.[/]"))
    else
      Step.ok none (consolePrint w ("[bold red]Error: Unsupported configuration file format: " ++ ext ++ "[/]"))

/-- Model of `load_config_file` (source lines 461-516) with its except chain.
Python evaluates the `except` clause expressions in order at handling time:
after `except FileNotFoundError` fails to match, evaluating
`tomllib.TOMLDecodeError` when `tomllib` is `None` itself raises an
`AttributeError`, which propagates to the caller — so, unlike every other
operation in the module, this one can raise. -/
def load_config_file (env : Env) (w : World) (file_path : String) : Step (Option Unit) :=
  match loadConfigBody env w file_path with
  | Step.ok r w1 => Step.ok r w1
  | Step.raised e w1 =>
    match e with
    | PyExn.fileNotFound _ =>
      Step.ok none (consolePrint w1 ("[bold red]Error: Configuration file not found: " ++ file_path ++ "[/]"))
    | e1 =>
      if env.tomllibAvailable = false then
        Step.raised (PyExn.attributeError "NoneType object has no attribute TOMLDecodeError") w1
      else
        match e1 with
        | PyExn.tomlDecodeError m =>
          Step.ok none (consolePrint w1 ("[bold red]Error decoding TOML file " ++ file_path ++ ": " ++ m ++ "[/]"))
        | PyExn.yamlError m =>
          Step.ok none (consolePrint w1 ("[bold red]Error decoding YAML file " ++ file_path ++ ": " ++ m ++ "[/]"))
        | PyExn.jsonDecodeError m =>
          Step.ok none (consolePrint w1 ("[bold red]Error decoding JSON file " ++ file_path ++ ": " ++ m ++ "[/]"))
        | e2 =>
          Step.ok none (consolePrint w1 ("[bold red]Error loading configuration file " ++ file_path ++ ": " ++ e2.str ++ "[/]"))

/-! ## A concrete fault-free environment and an empty world, used by the
concrete instances below -/

/-- A fault-free environment with a fixed clock and working directory. -/
def envOk : Env where
  now := ⟨2025, 1, 1, 12, 0, 0⟩
  cwd := "/cwd"
  makedirsFails := fun _ => false
  openWriteFails := fun _ => false
  docBuildFails := false
  putOutcome := fun _ _ => PutOutcome.ok
  tomllibAvailable := true
  configFiles := fun _ => ConfigRead.missing

/-- The empty initial world. -/
def world0 : World := ⟨[], [], [], []⟩

example :
    (export_audit_report_to_csv envOk world0 [] "audit_report" (some "out") none none false).1 =
      some "out/audit_report_20250101_1200.csv" := by decide

example :
    (export_audit_report_to_pdf envOk world0 [] "audit_report" (some "out") none none false).1 =
      none := by decide

example :
    (export_audit_report_to_csv envOk world0 [] "audit_report" none (some "b") (some "p") true).1 =
      some "s3://b/p/audit_report_20250101_1200.csv" := by decide

/-! ## Claim C1: error propagation at the export/load boundary -/

/-- An environment on Python < 3.11 without `tomli` installed (so the module
set `tomllib = None`), holding a YAML config file whose content is malformed. -/
def envNoTomli : Env where
  now := ⟨2025, 1, 1, 12, 0, 0⟩
  cwd := "/cwd"
  makedirsFails := fun _ => false
  openWriteFails := fun _ => false
  docBuildFails := false
  putOutcome := fun _ _ => PutOutcome.ok
  tomllibAvailable := false
  configFiles := fun p =>
    if p = "config.yaml" then
      ConfigRead.readable ParseOutcome.topDict (ParseOutcome.decodeError "while parsing a block node") ParseOutcome.topDict
    else ConfigRead.missing

/-- Claim C1: the claim states that `load_config_file` (like the export
functions) never propagates a raised exception.  The code violates this: with
`tomllib = None`, a YAML decode error reaches the except chain, and Python's
evaluation of the clause expression `tomllib.TOMLDecodeError` raises an
`AttributeError` that propagates to the caller, with no diagnostic emitted.
This theorem evaluates the model at that failing input. -/
theorem claim_C1_load_config_raises :
    load_config_file envNoTomli world0 "config.yaml" =
      Step.raised (PyExn.attributeError "NoneType object has no attribute TOMLDecodeError") world0 := by
  decide

/-! ## Claim C2: local-directory export behaviour -/

/-- Claim C2 counterexample: with directory argument `"out"` (not existing)
and no S3 destination, `export_audit_report_to_csv` returns the joined
relative path `"out/audit_report_<ts>.csv"`, which is not an absolute path;
and `export_audit_report_to_pdf` never creates the directory, so the export
fails and returns `None`.  Both refute the claim as stated. -/
theorem claim_C2_counterexample :
    ((export_audit_report_to_csv envOk world0 [] "audit_report" (some "out") none none false).1 =
        some "out/audit_report_20250101_1200.csv" ∧
      isAbsPath "out/audit_report_20250101_1200.csv" = false) ∧
    ((export_audit_report_to_pdf envOk world0 [] "audit_report" (some "out") none none false).2.dirs = [] ∧
      (export_audit_report_to_pdf envOk world0 [] "audit_report" (some "out") none none false).1 = none) := by
  decide

/-! ## Claim C5: behaviour with bucket set but session absent -/

/-- Claim C5 counterexample: with the S3 bucket set but no session and a
not-yet-existing directory `"out"`, the CSV export succeeds with a local
path while the audit-PDF export returns `None` — the outcome is not
consistent between functions, refuting the claim's cross-function clause. -/
theorem claim_C5_counterexample :
    (export_audit_report_to_csv envOk world0 [] "audit_report" (some "out") (some "bucket") none false).1 =
      some "out/audit_report_20250101_1200.csv" ∧
    (export_audit_report_to_pdf envOk world0 [] "audit_report" (some "out") (some "bucket") none false).1 =
      none := by
  decide

/-- Claim C5 (amended): when the bucket is set but the session is absent,
every export function behaves exactly as the corresponding fully-local call
(same return value and same world) — the degradation to local output is
deterministic per function, though not consistent across functions. -/
theorem claim_C5_degrades_to_local :
    (∀ env w rows fn p b x, export_audit_report_to_pdf env w rows fn p (some b) x false =
      export_audit_report_to_pdf env w rows fn p none x false) ∧
    (∀ env w rows fn p b x, export_audit_report_to_csv env w rows fn p (some b) x false =
      export_audit_report_to_csv env w rows fn p none x false) ∧
    (∀ env w d fn p b x, export_audit_report_to_json env w d fn p (some b) x false =
      export_audit_report_to_json env w d fn p none x false) ∧
    (∀ env w d fn p b x, export_trend_data_to_json env w d fn p (some b) x false =
      export_trend_data_to_json env w d fn p none x false) ∧
    (∀ env w d fn od pd cd b x, export_cost_dashboard_to_pdf env w d fn od pd cd (some b) x false =
      export_cost_dashboard_to_pdf env w d fn od pd cd none x false) := by
  refine ⟨?_, ?_, ?_, ?_, ?_⟩ <;>
    intros <;>
    simp [export_audit_report_to_pdf, exportAuditPdfBody,
      export_audit_report_to_csv, exportAuditCsvBody,
      export_audit_report_to_json, export_trend_data_to_json, exportJsonBody,
      export_cost_dashboard_to_pdf, exportCostPdfBody, Bool.and_false]

/-! ## Lemmas about the CSV buffer: physical line structure (claim C3) -/

/-- A carriage-return-free stream forms a single CRLF segment. -/
theorem splitCRLF_noCR (cs : List Char) (h : '\r' ∉ cs) : splitCRLF cs = [cs] := by
  induction cs using splitCRLF.induct with
  | case1 => simp [splitCRLF]
  | case2 rest ih => simp at h
  | case3 c rest h1 l ls hrec ih =>
    simp only [List.mem_cons, not_or] at h
    rw [splitCRLF]
    · rw [ih h.2]
    · exact h1
  | case4 c rest h1 hrec ih =>
    simp only [List.mem_cons, not_or] at h
    rw [ih h.2] at hrec
    cases hrec

/-- Splitting peels off a carriage-return-free segment before a CRLF. -/
theorem splitCRLF_append (a b : List Char) (ha : '\r' ∉ a) :
    splitCRLF (a ++ '\r' :: '\n' :: b) = a :: splitCRLF b := by
  induction a with
  | nil => simp [splitCRLF]
  | cons c rest ih =>
    simp only [List.mem_cons, not_or] at ha
    rw [List.cons_append, splitCRLF]
    · rw [ih ha.2]
    · intro r hc _
      exact ha.1 hc.symm

/-- Quote doubling introduces only quote characters. -/
theorem mem_csvEscapeChars (cs : List Char) (c : Char) (h : c ∈ csvEscapeChars cs) :
    c ∈ cs ∨ c = '"' := by
  induction cs using csvEscapeChars.induct with
  | case1 => simp [csvEscapeChars] at h
  | case2 rest ih =>
    rw [csvEscapeChars] at h
    rcases List.mem_cons.mp h with h1 | h1
    · exact Or.inr h1
    rcases List.mem_cons.mp h1 with h2 | h2
    · exact Or.inr h2
    rcases ih h2 with h3 | h3
    · exact Or.inl (List.mem_cons_of_mem _ h3)
    · exact Or.inr h3
  | case3 c1 rest h1 ih =>
    rw [csvEscapeChars] at h
    · rcases List.mem_cons.mp h with h2 | h2
      · exact Or.inl (by simp [h2])
      · rcases ih h2 with h3 | h3
        · exact Or.inl (List.mem_cons_of_mem _ h3)
        · exact Or.inr h3
    · exact h1

/-- An encoded field contains no carriage return when the raw field has none. -/
theorem noCR_csvField (f : String) (h : '\r' ∉ f.data) : '\r' ∉ (csvField f).data := by
  rw [csvField]
  split
  · intro hmem
    simp only [String.data_append] at hmem
    rcases List.mem_append.mp hmem with h1 | h1
    · rcases List.mem_append.mp h1 with h2 | h2
      · simp at h2
      · rcases mem_csvEscapeChars _ _ h2 with h3 | h3
        · exact h h3
        · cases h3
    · simp at h1
  · exact h

/-- Joining carriage-return-free pieces with a carriage-return-free separator
stays carriage-return-free. -/
theorem noCR_joinWith (sep : String) (l : List String) (hsep : '\r' ∉ sep.data)
    (h : ∀ f ∈ l, '\r' ∉ f.data) : '\r' ∉ (joinWith sep l).data := by
  induction l with
  | nil => simp [joinWith]
  | cons s rest ih =>
    cases rest with
    | nil =>
      simp only [joinWith]
      exact h s (by simp)
    | cons s2 rest2 =>
      rw [joinWith]
      · intro hmem
        simp only [String.data_append] at hmem
        rcases List.mem_append.mp hmem with h1 | h1
        · rcases List.mem_append.mp h1 with h2 | h2
          · exact h s (by simp) h2
          · exact hsep h2
        · exact ih (fun f hf => h f (List.mem_cons_of_mem _ hf)) h1
      · simp

/-- An encoded record contains no carriage return when none of its fields
does. -/
theorem noCR_csvRecord (fs : List String) (h : ∀ f ∈ fs, '\r' ∉ f.data) :
    '\r' ∉ (csvRecord fs).data := by
  refine noCR_joinWith _ _ (by decide) ?_
  intro f hf
  rcases List.mem_map.mp hf with ⟨g, hg, rfl⟩
  exact noCR_csvField g (h g hg)

/-- The CRLF segments of the writer buffer are exactly the encoded records,
followed by the empty segment after the final terminator. -/
theorem splitCRLF_writer (recs : List (List String))
    (h : ∀ r ∈ recs, ∀ f ∈ r, '\r' ∉ f.data) :
    splitCRLF (csvWriterContent recs).data =
      recs.map (fun r => (csvRecord r).data) ++ [[]] := by
  induction recs with
  | nil => simp [csvWriterContent, splitCRLF]
  | cons r rest ih =>
    have hdata : (csvWriterContent (r :: rest)).data =
        (csvRecord r).data ++ '\r' :: '\n' :: (csvWriterContent rest).data := by
      rw [csvWriterContent]
      simp [String.data_append]
    rw [hdata, splitCRLF_append _ _ (noCR_csvRecord r (h r (by simp)))]
    rw [ih (fun q hq f hf => h q (List.mem_cons_of_mem _ hq) f hf)]
    simp

/-- The seven header titles joined by the delimiter, as they appear as the
first CSV record. -/
def auditHeaderLine : String :=
  "Profile,Account ID,Untagged Resources,Stopped EC2 Instances,Unused Volumes,Unused EIPs,Budget Alerts"

/-- Claim C3: for every list of N audit rows (N = 0 included), the CSV buffer
consists of exactly N+1 lines — the fixed header line, whose comma-split
fields are exactly the seven titles in order, followed by one data line per
row in which a missing field is rendered as the empty string (`item.get(key,
"")`) rather than raising.  Lines are the CRLF-terminated writer records; the
hypothesis that field values hold no CR/LF makes physical lines and records
coincide (the split list ends with the empty segment after the final
terminator, so it has N+2 entries). -/
theorem claim_C3_csv_line_structure (rows : List AuditRow)
    (hf : ∀ r ∈ rows, ∀ k ∈ auditDataKeys, '\r' ∉ (r.get k).data ∧ '\n' ∉ (r.get k).data) :
    splitCRLF (auditCsvContent rows).data =
      auditHeaderLine.data ::
        (rows.map (fun r => (csvRecord (auditDataKeys.map (fun k => r.get k))).data) ++ [[]]) ∧
    (splitCRLF (auditCsvContent rows).data).length = (rows.length + 1) + 1 ∧
    splitComma auditHeaderLine.data = auditHeaders.map String.data := by
  have hforall : ∀ r ∈ (auditHeaders :: rows.map (fun q => auditDataKeys.map (fun k => q.get k))),
      ∀ f ∈ r, '\r' ∉ f.data := by
    intro r hr f hfr
    rcases List.mem_cons.mp hr with h1 | h1
    · subst h1
      fin_cases hfr <;> decide
    · rcases List.mem_map.mp h1 with ⟨q, hq, rfl⟩
      rcases List.mem_map.mp hfr with ⟨k, hk, rfl⟩
      exact (hf q hq k hk).1
  have hmain : splitCRLF (auditCsvContent rows).data =
      auditHeaderLine.data ::
        (rows.map (fun r => (csvRecord (auditDataKeys.map (fun k => r.get k))).data) ++ [[]]) := by
    rw [auditCsvContent, splitCRLF_writer _ hforall]
    rw [List.map_cons, List.map_map]
    have hhdr : (csvRecord auditHeaders).data = auditHeaderLine.data := by decide
    rw [hhdr]
    rfl
  refine ⟨hmain, ?_, by decide⟩
  rw [hmain]
  simp

/-- Claim C3 witness: a single row carrying only `profile` and `account_id`
satisfies the hypothesis, and the instantiated theorem yields the two-line
(plus trailing empty segment) structure. -/
theorem claim_C3_csv_line_structure_witness :
    (∀ r ∈ [AuditRow.mk [("profile", "p1"), ("account_id", "123")]], ∀ k ∈ auditDataKeys,
        '\r' ∉ (r.get k).data ∧ '\n' ∉ (r.get k).data) ∧
    (splitCRLF (auditCsvContent [AuditRow.mk [("profile", "p1"), ("account_id", "123")]]).data).length =
      (1 + 1) + 1 :=
  ⟨by decide, (claim_C3_csv_line_structure _ (by decide)).2.1⟩

/-! ## Lemmas about the markup-stripping filter (claim C8) -/

/-- A successful tag match returns a strictly shorter suffix of its input. -/
theorem matchTag_suffix (cs r : List Char) (h : matchTag cs = some r) :
    r <:+ cs ∧ r.length < cs.length := by
  have key : ∀ cs1 : List Char, cs1 <:+ cs →
      (match cs1.dropWhile tagNameChar with
        | c :: r1 => if c = ']' then some r1 else none
        | [] => none) = some r → r <:+ cs ∧ r.length < cs.length := by
    intro cs1 hcs1 hm
    split at hm
    · rename_i c r1 heq
      split at hm
      · rename_i hc
        cases hm
        subst hc
        have hdw : ']' :: r <:+ cs := heq ▸ ((List.dropWhile_suffix _).trans hcs1)
        refine ⟨(List.suffix_cons ']' r).trans hdw, ?_⟩
        have hlen := hdw.length_le
        simp at hlen
        omega
      · cases hm
    · cases hm
  rcases cs with _ | ⟨c0, rest0⟩
  · simp [matchTag] at h
  · simp only [matchTag] at h
    by_cases hc0 : c0 = '/'
    · rw [if_pos hc0] at h
      exact key rest0 (List.suffix_cons _ _) h
    · rw [if_neg hc0] at h
      exact key (c0 :: rest0) List.suffix_rfl h

/-- On a stream without opening brackets the filter is the identity. -/
theorem cleanAux_id (fuel : Nat) (cs : List Char) (h : '[' ∉ cs) :
    cleanAux fuel cs = cs := by
  induction fuel generalizing cs with
  | zero => rw [cleanAux]
  | succ fuel ih =>
    rcases cs with _ | ⟨c, rest⟩
    · rw [cleanAux]
    · simp only [List.mem_cons, not_or] at h
      rw [cleanAux, if_neg (fun hc => h.1 hc.symm), ih rest h.2]

/-- A stream without opening brackets contains no tag. -/
theorem containsTag_false (cs : List Char) (h : '[' ∉ cs) : containsTag cs = false := by
  induction cs with
  | nil => rw [containsTag]
  | cons c rest ih =>
    simp only [List.mem_cons, not_or] at h
    rw [containsTag, startsWithTag]
    simp only [Bool.or_eq_false_iff, Bool.and_eq_false_iff]
    refine ⟨Or.inl ?_, ih h.2⟩
    simp only [decide_eq_false_iff_not]
    exact fun hc => h.1 hc.symm

/-- With at most one opening bracket in the input (so that deletions cannot
splice text into a new tag), the filter's output contains no tag. -/
theorem cleanAux_no_tag (fuel : Nat) (cs : List Char) (hcount : cs.count '[' ≤ 1)
    (hfuel : cs.length ≤ fuel) : containsTag (cleanAux fuel cs) = false := by
  induction fuel generalizing cs with
  | zero =>
    rw [cleanAux]
    have hnil : cs = [] := List.eq_nil_of_length_eq_zero (by omega)
    subst hnil
    rw [containsTag]
  | succ fuel ih =>
    rcases cs with _ | ⟨c, rest⟩
    · rw [cleanAux, containsTag]
    · by_cases hc : c = '['
      · rw [cleanAux, if_pos hc]
        subst hc
        have hrest : rest.count '[' = 0 := by
          rw [List.count_cons_self] at hcount
          omega
        have hrestmem : '[' ∉ rest := List.count_eq_zero.mp hrest
        rcases hm : matchTag rest with _ | r1
        · show containsTag ('[' :: cleanAux fuel rest) = false
          rw [containsTag, startsWithTag]
          simp only [Bool.or_eq_false_iff, Bool.and_eq_false_iff]
          refine ⟨Or.inr ?_, ?_⟩
          · rw [cleanAux_id fuel rest hrestmem, hm]
            rfl
          · rw [cleanAux_id fuel rest hrestmem]
            exact containsTag_false rest hrestmem
        · show containsTag (cleanAux fuel r1) = false
          have hsub := matchTag_suffix rest r1 hm
          have hr1 : '[' ∉ r1 := fun hx => hrestmem (hsub.1.subset hx)
          rw [cleanAux_id fuel r1 hr1]
          exact containsTag_false r1 hr1
      · rw [cleanAux, if_neg hc]
        have hcount2 : rest.count '[' ≤ 1 := by
          rw [List.count_cons] at hcount
          omega
        rw [containsTag, startsWithTag]
        simp only [Bool.or_eq_false_iff, Bool.and_eq_false_iff]
        refine ⟨Or.inl (by simp [hc]), ?_⟩
        have hlen : rest.length ≤ fuel := by
          simp at hfuel
          omega
        exact ih rest hcount2 hlen

/-! ## Claim C8: the markup-stripping filter -/

/-- Claim C8 counterexample: the filter deletes non-overlapping matches in a
single left-to-right pass, so on input `"[[a]b]"` it removes only `"[a]"`,
yielding `"[b]"` — which is itself a markup tag.  The claim that for every
input string the filter's output contains no markup tag is therefore false. -/
theorem claim_C8_counterexample :
    clean_rich_tags ("[[a]b]") = "[b]" ∧
    containsTag (clean_rich_tags ("[[a]b]")).data = true := by
  decide

/-- Claim C8 (amended): the filter deletes the leftmost non-overlapping
occurrences of the tag pattern in one pass; the output is guaranteed tag-free
whenever deletions cannot splice surrounding text into a new tag — in
particular, for every input with at most one `[` character the output
contains no markup tag. -/
theorem claim_C8_strip_no_tag (s : String) (h : s.data.count '[' ≤ 1) :
    containsTag (clean_rich_tags s).data = false := by
  rw [clean_rich_tags]
  exact cleanAux_no_tag _ _ h (by omega)

/-- Claim C8 witness: the bracket-bounded hypothesis holds on `"x[a]y"`, on
which the filter's output is tag-free. -/
theorem claim_C8_strip_no_tag_witness :
    ("x[a]y" : String).data.count '[' ≤ 1 ∧
    containsTag (clean_rich_tags ("x[a]y")).data = false :=
  ⟨by decide, claim_C8_strip_no_tag ("x[a]y") (by decide)⟩

/-! ## Claim C7: budget and EC2 sections of the cost PDF -/

/-- Every row's element block occurs contiguously in the joined row
sequence. -/
theorem mem_costRowsJoined (data : List ProfileData) (r : ProfileData) (hr : r ∈ data) :
    ∃ pre post, costRowsJoined data = pre ++ costRowElements r ++ post := by
  induction data using costRowsJoined.induct with
  | case1 => simp at hr
  | case2 x =>
    rcases List.mem_singleton.mp hr with rfl
    exact ⟨[], [], by simp [costRowsJoined]⟩
  | case3 x y rest ih =>
    rcases List.mem_cons.mp hr with rfl | h1
    · exact ⟨[], [Flowable.spacer 1 14] ++ costRowsJoined (y :: rest), by simp [costRowsJoined]⟩
    · obtain ⟨pre, post, hp⟩ := ih h1
      refine ⟨costRowElements x ++ [Flowable.spacer 1 14] ++ pre, post, ?_⟩
      rw [costRowsJoined, hp]
      simp

/-- The code's truthiness fallback for the budget list agrees with the
spec-side emptiness conditional. -/
theorem budgetItems_eq (l : List String) :
    budgetItems l = if l = [] then ["No budgets"] else l := by
  cases l <;> simp [budgetItems]

/-- The code's `or`-fallback over the positive-count comprehension agrees with
the spec-side "all counts zero" conditional. -/
theorem ec2SummaryItems_eq (m : List (String × Nat)) :
    ec2SummaryItems m =
      if m.all (fun p => p.2 = 0) then ["No instances"]
      else (m.filter (fun p => 0 < p.2)).map (fun p => p.1 ++ ": " ++ natToDec p.2) := by
  by_cases hall : m.all (fun p => p.2 = 0)
  · rw [if_pos hall]
    have hfilter : m.filter (fun p => 0 < p.2) = [] := by
      rw [List.filter_eq_nil]
      intro p hp
      have := List.all_eq_true.mp hall p hp
      simp at this ⊢
      omega
    rw [ec2SummaryItems, hfilter]
    rfl
  · rw [if_neg hall]
    rcases hX : (m.filter (fun p => 0 < p.2)).map (fun p => p.1 ++ ": " ++ natToDec p.2)
      with _ | ⟨a, as⟩
    · exfalso
      apply hall
      rw [List.map_eq_nil] at hX
      rw [List.all_eq_true]
      intro p hp
      by_contra hne
      have hpos : 0 < p.2 := by
        simp at hne
        omega
      have : p ∈ m.filter (fun p => 0 < p.2) := List.mem_filter.mpr ⟨hp, by simpa using hpos⟩
      rw [hX] at this
      simp at this
    · rw [ec2SummaryItems, hX]

/-- Claim C7: in the cost PDF's element sequence, each row contributes a
"Budget Status" bulleted list holding exactly the row's `budget_info` strings
(or the single bullet "No budgets" when empty), immediately followed (after
the spacer) by an "EC2 Instances" bulleted list holding one `<state>: <count>`
bullet per state with positive count (or the single bullet "No instances"
when all counts are zero). -/
theorem claim_C7_budget_ec2_sections (data : List ProfileData)
    (previous_period_dates current_period_dates : String) (now : DateTime)
    (r : ProfileData) (hr : r ∈ data) :
    ∃ pre post,
      costElements data previous_period_dates current_period_dates now =
        pre ++
          [Flowable.miniHeader ("Budget Status"),
           Flowable.bulletList (if r.budget_info = [] then ["No budgets"] else r.budget_info),
           Flowable.spacer 1 6,
           Flowable.miniHeader ("EC2 Instances"),
           Flowable.bulletList
             (if r.ec2_summary.all (fun p => p.2 = 0) then ["No instances"]
              else (r.ec2_summary.filter (fun p => 0 < p.2)).map
                (fun p => p.1 ++ ": " ++ natToDec p.2))] ++
          post := by
  obtain ⟨pre, post, hj⟩ := mem_costRowsJoined data r hr
  refine ⟨[Flowable.title ("AWS FinOps Dashboard (Cost Report)"), Flowable.spacer 1 10,
    Flowable.para ("<b>Previous Period:</b> " ++ previous_period_dates ++
      "<br/><b>Current Period:</b> " ++ current_period_dates),
    Flowable.spacer 1 6] ++ pre ++
    [Flowable.headerCard ("<b>Profile:</b> " ++ r.profile ++ "  &nbsp;&nbsp;&nbsp; <b>Account:</b> " ++ r.account_id),
     Flowable.spacer 1 6,
     Flowable.keyValueTable
       [("Previous Period Cost", "<b>$" ++ fmtCurrency2 r.last_month ++ "</b>"),
        ("Current Period Cost", "<b>$" ++ fmtCurrency2 r.current_month ++ "</b>")],
     Flowable.spacer 1 6,
     Flowable.miniHeader ("Cost By Service"),
     Flowable.bulletList (formatServicesForList r.service_costs),
     Flowable.spacer 1 6],
    post ++
    [Flowable.spacer 1 8,
     Flowable.para ("This report is generated using AWS FinOps Dashboard (CLI) © 2025 on "
       ++ strftimeFull now)], ?_⟩
  rw [costElements, hj]
  rw [← budgetItems_eq, ← ec2SummaryItems_eq]
  simp [costRowElements]

/-- Claim C7 witness: a concrete row with two budget lines and a mixed EC2
summary, as the only row of the report. -/
theorem claim_C7_budget_ec2_sections_witness :
    (ProfileData.mk "p1" "123" 100 (301/2) [] ["b1", "b2"] [("running", 2), ("stopped", 0)]) ∈
      [ProfileData.mk "p1" "123" 100 (301/2) [] ["b1", "b2"] [("running", 2), ("stopped", 0)]] ∧
    ∃ pre post,
      costElements [ProfileData.mk "p1" "123" 100 (301/2) [] ["b1", "b2"] [("running", 2), ("stopped", 0)]]
          ("prev") ("curr") ⟨2025, 1, 1, 12, 0, 0⟩ =
        pre ++
          [Flowable.miniHeader ("Budget Status"),
           Flowable.bulletList
             (if ["b1", "b2"] = ([] : List String) then ["No budgets"] else ["b1", "b2"]),
           Flowable.spacer 1 6,
           Flowable.miniHeader ("EC2 Instances"),
           Flowable.bulletList
             (if [("running", 2), ("stopped", 0)].all (fun p : String × Nat => p.2 = 0) then ["No instances"]
              else ([("running", 2), ("stopped", 0)].filter (fun p : String × Nat => 0 < p.2)).map
                (fun p => p.1 ++ ": " ++ natToDec p.2))] ++
          post :=
  ⟨List.mem_singleton.mpr rfl,
   claim_C7_budget_ec2_sections _ ("prev") ("curr") ⟨2025, 1, 1, 12, 0, 0⟩ _
     (List.mem_singleton.mpr rfl)⟩

/-! ## Claim C9: currency strings in the cost PDF -/

/-- The number of characters after the last decimal point. -/
def decimalsAfterPoint (s : String) : Nat :=
  (s.data.reverse.takeWhile (fun c => c ≠ '.')).length

/-- Value of a digit character. -/
theorem digitChar_toNat (n : Nat) (h : n < 10) : (digitChar n).toNat = 48 + n := by
  interval_cases n <;> decide

/-- Every character that decimal rendering emits is a digit character. -/
theorem natToDecAux_mem (fuel n : Nat) (c : Char) (h : c ∈ natToDecAux fuel n) :
    ∃ m, m < 10 ∧ c = digitChar m := by
  induction fuel generalizing n with
  | zero => simp [natToDecAux] at h
  | succ fuel ih =>
    rw [natToDecAux] at h
    by_cases hn : n < 10
    · rw [if_pos hn] at h
      rcases List.mem_singleton.mp h with rfl
      exact ⟨n, hn, rfl⟩
    · rw [if_neg hn] at h
      rcases List.mem_append.mp h with h1 | h1
      · exact ih _ h1
      · rcases List.mem_singleton.mp h1 with rfl
        exact ⟨n % 10, Nat.mod_lt _ (by omega), rfl⟩

/-- Characters of a decimal rendering have code points 48 through 57. -/
theorem mem_natToDec_toNat (n : Nat) (c : Char) (h : c ∈ (natToDec n).data) :
    48 ≤ c.toNat ∧ c.toNat ≤ 57 := by
  obtain ⟨m, hm, rfl⟩ := natToDecAux_mem _ _ _ h
  rw [digitChar_toNat m hm]
  omega

/-- A single-digit number renders as one character. -/
theorem natToDec_length1 (n : Nat) (h : n < 10) : (natToDec n).data.length = 1 := by
  rw [natToDec]
  show (natToDecAux (n + 1) n).length = 1
  rw [natToDecAux, if_pos h]
  rfl

/-- A two-digit number renders as two characters. -/
theorem natToDec_length2 (n : Nat) (h1 : 10 ≤ n) (h2 : n < 100) :
    (natToDec n).data.length = 2 := by
  rw [natToDec]
  show (natToDecAux (n + 1) n).length = 1 + 1
  rw [natToDecAux, if_neg (by omega)]
  obtain ⟨k, rfl⟩ : ∃ k, n = k + 1 := ⟨n - 1, by omega⟩
  rw [natToDecAux, if_pos (by omega)]
  simp

/-- Two-digit zero padding always yields two characters. -/
theorem pad2_length (n : Nat) (h : n < 100) : (pad2 n).data.length = 2 := by
  rw [pad2]
  by_cases hn : n < 10
  · rw [if_pos hn]
    rw [String.data_append, List.length_append, natToDec_length1 n hn]
    rfl
  · rw [if_neg hn]
    exact natToDec_length2 n (by omega) h

/-- Characters of a padded two-digit rendering are never a decimal point. -/
theorem pad2_no_point (n : Nat) (c : Char) (h : c ∈ (pad2 n).data) : c ≠ '.' := by
  intro hc
  subst hc
  rw [pad2] at h
  have hnum : ('.' : Char) ∈ (natToDec n).data → False := by
    intro hx
    have hb := mem_natToDec_toNat n _ hx
    simp at hb
  by_cases hn : n < 10
  · rw [if_pos hn, String.data_append] at h
    rcases List.mem_append.mp h with h1 | h1
    · simp at h1
    · exact hnum h1
  · rw [if_neg hn] at h
    exact hnum h

/-- Taking while the predicate holds stops exactly at the first failure. -/
theorem takeWhile_append_stop (p : Char → Bool) (a : List Char) (c : Char) (b : List Char)
    (ha : ∀ x ∈ a, p x = true) (hc : p c = false) :
    (a ++ c :: b).takeWhile p = a := by
  induction a with
  | nil => simp [List.takeWhile, hc]
  | cons x rest ih =>
    rw [List.cons_append, List.takeWhile_cons, ha x (by simp)]
    rw [ih (fun y hy => ha y (List.mem_cons_of_mem _ hy))]
    rfl

/-- Every currency rendering carries exactly two digits after the decimal
point. -/
theorem fmtCurrency2_decimals (q : ℚ) : decimalsAfterPoint (fmtCurrency2 q) = 2 := by
  have key : ∀ (sign : String) (hi lo : Nat), lo < 100 →
      decimalsAfterPoint (sign ++ natToDec hi ++ "." ++ pad2 lo) = 2 := by
    intro sign hi lo hlo
    rw [decimalsAfterPoint]
    have hdata : (sign ++ natToDec hi ++ "." ++ pad2 lo).data.reverse =
        (pad2 lo).data.reverse ++ '.' :: ((natToDec hi).data.reverse ++ sign.data.reverse) := by
      simp only [String.data_append, List.reverse_append]
      simp
    rw [hdata]
    have hstop := takeWhile_append_stop (fun c => decide (c ≠ '.'))
      ((pad2 lo).data.reverse) '.' ((natToDec hi).data.reverse ++ sign.data.reverse)
      (fun x hx => decide_eq_true (pad2_no_point lo x (List.mem_reverse.mp hx)))
      (by decide)
    rw [hstop, List.length_reverse]
    exact pad2_length lo hlo
  simp only [fmtCurrency2]
  exact key _ _ _ (Nat.mod_lt _ (by omega))

/-- The concrete rendering of 150.5 dollars. -/
theorem fmtCurrency2_150_5 : fmtCurrency2 (150.5 : ℚ) = "150.50" := by
  have h1 : roundCentsHE (150.5 : ℚ) = 15050 := by
    simp only [roundCentsHE]
    norm_num
  simp only [fmtCurrency2, h1]
  decide

/-- The concrete rendering of 100 dollars. -/
theorem fmtCurrency2_100 : fmtCurrency2 (100 : ℚ) = "100.00" := by
  have h1 : roundCentsHE (100 : ℚ) = 10000 := by
    simp only [roundCentsHE]
    norm_num
  simp only [fmtCurrency2, h1]
  decide

/-- Claim C9: for a cost row with `current_month = 150.5` and
`last_month = 100.0`, the key/value cost table rendered for that row holds
exactly the currency strings `$100.00` and `$150.50` (inside the retained
bold markup of the cell), and in general every period cost is rendered as a
dollar sign followed by the amount with exactly two digits after the decimal
point. -/
theorem claim_C9_currency_strings (data : List ProfileData)
    (previous_period_dates current_period_dates : String) (now : DateTime)
    (r : ProfileData) (hr : r ∈ data)
    (hcur : r.current_month = 150.5) (hlast : r.last_month = 100) :
    (∃ pre post,
      costElements data previous_period_dates current_period_dates now =
        pre ++
          [Flowable.keyValueTable
            [("Previous Period Cost", "<b>" ++ "$100.00" ++ "</b>"),
             ("Current Period Cost", "<b>" ++ "$150.50" ++ "</b>")]] ++
          post) ∧
    (∀ q : ℚ, decimalsAfterPoint (fmtCurrency2 q) = 2) := by
  refine ⟨?_, fmtCurrency2_decimals⟩
  obtain ⟨pre, post, hj⟩ := mem_costRowsJoined data r hr
  refine ⟨[Flowable.title ("AWS FinOps Dashboard (Cost Report)"), Flowable.spacer 1 10,
    Flowable.para ("<b>Previous Period:</b> " ++ previous_period_dates ++
      "<br/><b>Current Period:</b> " ++ current_period_dates),
    Flowable.spacer 1 6] ++ pre ++
    [Flowable.headerCard ("<b>Profile:</b> " ++ r.profile ++ "  &nbsp;&nbsp;&nbsp; <b>Account:</b> " ++ r.account_id),
     Flowable.spacer 1 6],
    [Flowable.spacer 1 6,
     Flowable.miniHeader ("Cost By Service"),
     Flowable.bulletList (formatServicesForList r.service_costs),
     Flowable.spacer 1 6,
     Flowable.miniHeader ("Budget Status"),
     Flowable.bulletList (budgetItems r.budget_info),
     Flowable.spacer 1 6,
     Flowable.miniHeader ("EC2 Instances"),
     Flowable.bulletList (ec2SummaryItems r.ec2_summary)] ++ post ++
    [Flowable.spacer 1 8,
     Flowable.para ("This report is generated using AWS FinOps Dashboard (CLI) © 2025 on "
       ++ strftimeFull now)], ?_⟩
  rw [costElements, hj]
  have hcell1 : "<b>$" ++ fmtCurrency2 r.last_month ++ "</b>" = "<b>" ++ "$100.00" ++ "</b>" := by
    rw [hlast, fmtCurrency2_100]
    decide
  have hcell2 : "<b>$" ++ fmtCurrency2 r.current_month ++ "</b>" = "<b>" ++ "$150.50" ++ "</b>" := by
    rw [hcur, fmtCurrency2_150_5]
    decide
  simp only [costRowElements, hcell1, hcell2]
  simp

/-- Claim C9 witness: the concrete row with the two stated amounts, as the
only row of the report. -/
theorem claim_C9_currency_strings_witness :
    (ProfileData.mk "p1" "123" 100 150.5 [] [] []) ∈
      [ProfileData.mk "p1" "123" 100 150.5 [] [] []] ∧
    (ProfileData.mk "p1" "123" 100 150.5 [] [] []).current_month = 150.5 ∧
    (ProfileData.mk "p1" "123" 100 150.5 [] [] []).last_month = 100 ∧
    ((∃ pre post,
      costElements [ProfileData.mk "p1" "123" 100 150.5 [] [] []] ("prev") ("curr")
          ⟨2025, 1, 1, 12, 0, 0⟩ =
        pre ++
          [Flowable.keyValueTable
            [("Previous Period Cost", "<b>" ++ "$100.00" ++ "</b>"),
             ("Current Period Cost", "<b>" ++ "$150.50" ++ "</b>")]] ++
          post) ∧
    (∀ q : ℚ, decimalsAfterPoint (fmtCurrency2 q) = 2)) :=
  ⟨List.mem_singleton.mpr rfl, rfl, rfl,
   claim_C9_currency_strings _ ("prev") ("curr") ⟨2025, 1, 1, 12, 0, 0⟩ _
     (List.mem_singleton.mpr rfl) rfl rfl⟩

/-! ## Claim C6: remote key shape and returned URI -/

/-- Claim C6: for every remote export with bucket `b`, timestamped filename
`f`, and optional prefix, the object key is `prefix ++ "/" ++ f` when a
non-empty prefix is given and `f` otherwise, with all leading slashes
stripped, and on a successful put the returned location is the URI
`s3://<bucket>/<key>`.  Stated for all five export operations. -/
theorem claim_C6_s3_key_and_uri (env : Env) (w : World) (b : String) (hb : b ≠ "")
    (file_name : String) (pfx : Option String) :
    (∀ rows els path, auditElements env.now rows = Except.ok els →
      env.docBuildFails = false →
      env.putOutcome b (lstripSlashes (if optStrTruthy pfx then
          (pfx.getD "") ++ "/" ++ (file_name ++ "_" ++ strftimeCompact env.now ++ ".pdf")
        else file_name ++ "_" ++ strftimeCompact env.now ++ ".pdf")) = PutOutcome.ok →
      (export_audit_report_to_pdf env w rows file_name path (some b) pfx true).1 =
        some ("s3://" ++ b ++ "/" ++ lstripSlashes (if optStrTruthy pfx then
          (pfx.getD "") ++ "/" ++ (file_name ++ "_" ++ strftimeCompact env.now ++ ".pdf")
        else file_name ++ "_" ++ strftimeCompact env.now ++ ".pdf"))) ∧
    (∀ rows path,
      env.putOutcome b (lstripSlashes (if optStrTruthy pfx then
          (pfx.getD "") ++ "/" ++ (file_name ++ "_" ++ strftimeCompact env.now ++ ".csv")
        else file_name ++ "_" ++ strftimeCompact env.now ++ ".csv")) = PutOutcome.ok →
      (export_audit_report_to_csv env w rows file_name path (some b) pfx true).1 =
        some ("s3://" ++ b ++ "/" ++ lstripSlashes (if optStrTruthy pfx then
          (pfx.getD "") ++ "/" ++ (file_name ++ "_" ++ strftimeCompact env.now ++ ".csv")
        else file_name ++ "_" ++ strftimeCompact env.now ++ ".csv"))) ∧
    (∀ d path,
      env.putOutcome b (lstripSlashes (if optStrTruthy pfx then
          (pfx.getD "") ++ "/" ++ (file_name ++ "_" ++ strftimeCompact env.now ++ ".json")
        else file_name ++ "_" ++ strftimeCompact env.now ++ ".json")) = PutOutcome.ok →
      (export_audit_report_to_json env w d file_name path (some b) pfx true).1 =
        some ("s3://" ++ b ++ "/" ++ lstripSlashes (if optStrTruthy pfx then
          (pfx.getD "") ++ "/" ++ (file_name ++ "_" ++ strftimeCompact env.now ++ ".json")
        else file_name ++ "_" ++ strftimeCompact env.now ++ ".json"))) ∧
    (∀ d path,
      env.putOutcome b (lstripSlashes (if optStrTruthy pfx then
          (pfx.getD "") ++ "/" ++ (file_name ++ "_" ++ strftimeCompact env.now ++ ".json")
        else file_name ++ "_" ++ strftimeCompact env.now ++ ".json")) = PutOutcome.ok →
      (export_trend_data_to_json env w d file_name path (some b) pfx true).1 =
        some ("s3://" ++ b ++ "/" ++ lstripSlashes (if optStrTruthy pfx then
          (pfx.getD "") ++ "/" ++ (file_name ++ "_" ++ strftimeCompact env.now ++ ".json")
        else file_name ++ "_" ++ strftimeCompact env.now ++ ".json"))) ∧
    (∀ d od pd cd,
      env.docBuildFails = false →
      env.putOutcome b (lstripSlashes (if optStrTruthy pfx then
          (pfx.getD "") ++ "/" ++ (file_name ++ "_" ++ strftimeCompact env.now ++ ".pdf")
        else file_name ++ "_" ++ strftimeCompact env.now ++ ".pdf")) = PutOutcome.ok →
      (export_cost_dashboard_to_pdf env w d file_name od pd cd (some b) pfx true).1 =
        some ("s3://" ++ b ++ "/" ++ lstripSlashes (if optStrTruthy pfx then
          (pfx.getD "") ++ "/" ++ (file_name ++ "_" ++ strftimeCompact env.now ++ ".pdf")
        else file_name ++ "_" ++ strftimeCompact env.now ++ ".pdf"))) := by
  have hbt : optStrTruthy (some b) = true := by simp [optStrTruthy, hb]
  refine ⟨?_, ?_, ?_, ?_, ?_⟩
  · intro rows els path hels hbuild hput
    simp [export_audit_report_to_pdf, exportAuditPdfBody, hels, hbuild, upload_to_s3,
      s3KeyFor, hbt, hput]
  · intro rows path hput
    simp [export_audit_report_to_csv, exportAuditCsvBody, upload_to_s3,
      s3KeyFor, hbt, hput]
  · intro d path hput
    simp [export_audit_report_to_json, exportJsonBody, upload_to_s3,
      s3KeyFor, hbt, hput]
  · intro d path hput
    simp [export_trend_data_to_json, exportJsonBody, upload_to_s3,
      s3KeyFor, hbt, hput]
  · intro d od pd cd hbuild hput
    simp [export_cost_dashboard_to_pdf, exportCostPdfBody, hbuild, upload_to_s3,
      s3KeyFor, hbt, hput]

/-- Claim C6 witness: bucket `"bkt"`, prefix `"/reports"` (whose leading slash
is stripped from the key), evaluated for the CSV export under the fault-free
environment. -/
theorem claim_C6_s3_key_and_uri_witness :
    ("bkt" : String) ≠ "" ∧
    envOk.putOutcome "bkt" (lstripSlashes (if optStrTruthy (some "/reports") then
        ((some "/reports").getD "") ++ "/" ++ ("audit_report" ++ "_" ++ strftimeCompact envOk.now ++ ".csv")
      else "audit_report" ++ "_" ++ strftimeCompact envOk.now ++ ".csv")) = PutOutcome.ok ∧
    (export_audit_report_to_csv envOk world0 [] "audit_report" none (some "bkt") (some "/reports") true).1 =
      some ("s3://" ++ "bkt" ++ "/" ++ lstripSlashes (if optStrTruthy (some "/reports") then
        ((some "/reports").getD "") ++ "/" ++ ("audit_report" ++ "_" ++ strftimeCompact envOk.now ++ ".csv")
      else "audit_report" ++ "_" ++ strftimeCompact envOk.now ++ ".csv")) :=
  ⟨by decide, by decide,
   (claim_C6_s3_key_and_uri envOk world0 "bkt" (by decide) "audit_report"
       (some "/reports")).2.1 [] none (by decide)⟩

/-! ## Claim C10: no local filesystem effects in S3 mode -/

/-- Claim C10: with the bucket set and a session supplied, no export call
creates a directory or writes a local file — the local path argument is
ignored and, when the put succeeds, the world's upload log is extended by
exactly the one put of the in-memory buffer.  Stated for all five export
operations over an arbitrary environment (so also for failing puts, failing
layout, and element-building failures). -/
theorem claim_C10_s3_mode_frame (env : Env) (w : World) (b : String) (hb : b ≠ "")
    (file_name : String) (path : Option String) (pfx : Option String) :
    (∀ rows,
      ((export_audit_report_to_pdf env w rows file_name path (some b) pfx true).2.dirs = w.dirs ∧
       (export_audit_report_to_pdf env w rows file_name path (some b) pfx true).2.files = w.files) ∧
      (∀ els, auditElements env.now rows = Except.ok els → env.docBuildFails = false →
        env.putOutcome b (s3KeyFor pfx (file_name ++ "_" ++ strftimeCompact env.now ++ ".pdf")) =
          PutOutcome.ok →
        (export_audit_report_to_pdf env w rows file_name path (some b) pfx true).2.puts =
          w.puts ++ [(b, s3KeyFor pfx (file_name ++ "_" ++ strftimeCompact env.now ++ ".pdf"),
            Content.pdf els, some "application/pdf")])) ∧
    (∀ rows,
      ((export_audit_report_to_csv env w rows file_name path (some b) pfx true).2.dirs = w.dirs ∧
       (export_audit_report_to_csv env w rows file_name path (some b) pfx true).2.files = w.files) ∧
      (env.putOutcome b (s3KeyFor pfx (file_name ++ "_" ++ strftimeCompact env.now ++ ".csv")) =
          PutOutcome.ok →
        (export_audit_report_to_csv env w rows file_name path (some b) pfx true).2.puts =
          w.puts ++ [(b, s3KeyFor pfx (file_name ++ "_" ++ strftimeCompact env.now ++ ".csv"),
            Content.text (auditCsvContent rows), some "text/csv")])) ∧
    (∀ d,
      ((export_audit_report_to_json env w d file_name path (some b) pfx true).2.dirs = w.dirs ∧
       (export_audit_report_to_json env w d file_name path (some b) pfx true).2.files = w.files) ∧
      (env.putOutcome b (s3KeyFor pfx (file_name ++ "_" ++ strftimeCompact env.now ++ ".json")) =
          PutOutcome.ok →
        (export_audit_report_to_json env w d file_name path (some b) pfx true).2.puts =
          w.puts ++ [(b, s3KeyFor pfx (file_name ++ "_" ++ strftimeCompact env.now ++ ".json"),
            Content.text (jdumps (JVal.jarr d)), some "application/json")])) ∧
    (∀ d,
      ((export_trend_data_to_json env w d file_name path (some b) pfx true).2.dirs = w.dirs ∧
       (export_trend_data_to_json env w d file_name path (some b) pfx true).2.files = w.files) ∧
      (env.putOutcome b (s3KeyFor pfx (file_name ++ "_" ++ strftimeCompact env.now ++ ".json")) =
          PutOutcome.ok →
        (export_trend_data_to_json env w d file_name path (some b) pfx true).2.puts =
          w.puts ++ [(b, s3KeyFor pfx (file_name ++ "_" ++ strftimeCompact env.now ++ ".json"),
            Content.text (jdumps (JVal.jarr d)), some "application/json")])) ∧
    (∀ d pd cd,
      ((export_cost_dashboard_to_pdf env w d file_name path pd cd (some b) pfx true).2.dirs = w.dirs ∧
       (export_cost_dashboard_to_pdf env w d file_name path pd cd (some b) pfx true).2.files = w.files) ∧
      (env.docBuildFails = false →
        env.putOutcome b (s3KeyFor pfx (file_name ++ "_" ++ strftimeCompact env.now ++ ".pdf")) =
          PutOutcome.ok →
        (export_cost_dashboard_to_pdf env w d file_name path pd cd (some b) pfx true).2.puts =
          w.puts ++ [(b, s3KeyFor pfx (file_name ++ "_" ++ strftimeCompact env.now ++ ".pdf"),
            Content.pdf (costElements d pd cd env.now), some "application/pdf")])) := by
  have hbt : optStrTruthy (some b) = true := by simp [optStrTruthy, hb]
  refine ⟨?_, ?_, ?_, ?_, ?_⟩
  · intro rows
    constructor
    · rcases hels : auditElements env.now rows with e | els
      · simp [export_audit_report_to_pdf, exportAuditPdfBody, hels, consolePrint]
      · by_cases hbd : env.docBuildFails
        · simp [export_audit_report_to_pdf, exportAuditPdfBody, hels, hbd, hbt, consolePrint]
        · rcases hpo : env.putOutcome b (s3KeyFor pfx (file_name ++ "_" ++ strftimeCompact env.now ++ ".pdf"))
            with _ | m | m <;>
            simp [export_audit_report_to_pdf, exportAuditPdfBody, hels, hbd, hbt,
              upload_to_s3, optStrTruthy, hb, hpo, consolePrint]
    · intro els hels hbd hput
      simp [export_audit_report_to_pdf, exportAuditPdfBody, hels, hbd, hbt,
        upload_to_s3, optStrTruthy, hb, hput, consolePrint]
  · intro rows
    constructor
    · rcases hpo : env.putOutcome b (s3KeyFor pfx (file_name ++ "_" ++ strftimeCompact env.now ++ ".csv"))
        with _ | m | m <;>
        simp [export_audit_report_to_csv, exportAuditCsvBody, hbt,
          upload_to_s3, optStrTruthy, hb, hpo, consolePrint]
    · intro hput
      simp [export_audit_report_to_csv, exportAuditCsvBody, hbt,
        upload_to_s3, optStrTruthy, hb, hput, consolePrint]
  · intro d
    constructor
    · rcases hpo : env.putOutcome b (s3KeyFor pfx (file_name ++ "_" ++ strftimeCompact env.now ++ ".json"))
        with _ | m | m <;>
        simp [export_audit_report_to_json, exportJsonBody, hbt,
          upload_to_s3, optStrTruthy, hb, hpo, consolePrint]
    · intro hput
      simp [export_audit_report_to_json, exportJsonBody, hbt,
        upload_to_s3, optStrTruthy, hb, hput, consolePrint]
  · intro d
    constructor
    · rcases hpo : env.putOutcome b (s3KeyFor pfx (file_name ++ "_" ++ strftimeCompact env.now ++ ".json"))
        with _ | m | m <;>
        simp [export_trend_data_to_json, exportJsonBody, hbt,
          upload_to_s3, optStrTruthy, hb, hpo, consolePrint]
    · intro hput
      simp [export_trend_data_to_json, exportJsonBody, hbt,
        upload_to_s3, optStrTruthy, hb, hput, consolePrint]
  · intro d pd cd
    constructor
    · by_cases hbd : env.docBuildFails
      · simp [export_cost_dashboard_to_pdf, exportCostPdfBody, hbd, hbt, consolePrint]
      · rcases hpo : env.putOutcome b (s3KeyFor pfx (file_name ++ "_" ++ strftimeCompact env.now ++ ".pdf"))
          with _ | m | m <;>
          simp [export_cost_dashboard_to_pdf, exportCostPdfBody, hbd, hbt,
            upload_to_s3, optStrTruthy, hb, hpo, consolePrint]
    · intro hbd hput
      simp [export_cost_dashboard_to_pdf, exportCostPdfBody, hbd, hbt,
        upload_to_s3, optStrTruthy, hb, hput, consolePrint]

/-- Claim C10 witness: the CSV export in S3 mode under the fault-free
environment leaves directories and files untouched, with the single put
recorded. -/
theorem claim_C10_s3_mode_frame_witness :
    ("bkt" : String) ≠ "" ∧
    envOk.putOutcome "bkt" (s3KeyFor (some "p") ("audit_report" ++ "_" ++ strftimeCompact envOk.now ++ ".csv")) =
      PutOutcome.ok ∧
    ((export_audit_report_to_csv envOk world0 [] "audit_report" (some "out") (some "bkt") (some "p") true).2.dirs =
        world0.dirs ∧
      (export_audit_report_to_csv envOk world0 [] "audit_report" (some "out") (some "bkt") (some "p") true).2.files =
        world0.files) ∧
    (export_audit_report_to_csv envOk world0 [] "audit_report" (some "out") (some "bkt") (some "p") true).2.puts =
      world0.puts ++ [("bkt", s3KeyFor (some "p") ("audit_report" ++ "_" ++ strftimeCompact envOk.now ++ ".csv"),
        Content.text (auditCsvContent []), some "text/csv")] :=
  ⟨by decide, by decide,
   ((claim_C10_s3_mode_frame envOk world0 "bkt" (by decide) "audit_report" (some "out") (some "p")).2.1 []).1,
   ((claim_C10_s3_mode_frame envOk world0 "bkt" (by decide) "audit_report" (some "out") (some "p")).2.1 []).2
     (by decide)⟩

/-! ## Path lemmas for the local-directory claim (C2) -/

/-- Characters of two-digit padding are decimal digits. -/
theorem mem_pad2_toNat (n : Nat) (c : Char) (h : c ∈ (pad2 n).data) :
    48 ≤ c.toNat ∧ c.toNat ≤ 57 := by
  rw [pad2] at h
  by_cases hn : n < 10
  · rw [if_pos hn, String.data_append] at h
    rcases List.mem_append.mp h with h1 | h1
    · rcases List.mem_singleton.mp h1 with rfl
      decide
    · exact mem_natToDec_toNat _ _ h1
  · rw [if_neg hn] at h
    exact mem_natToDec_toNat _ _ h

/-- Characters of four-digit padding are decimal digits. -/
theorem mem_pad4_toNat (n : Nat) (c : Char) (h : c ∈ (pad4 n).data) :
    48 ≤ c.toNat ∧ c.toNat ≤ 57 := by
  rw [pad4] at h
  have hzeros : ∀ (z : String), (∀ x ∈ z.data, 48 ≤ x.toNat ∧ x.toNat ≤ 57) →
      c ∈ (z ++ natToDec n).data → 48 ≤ c.toNat ∧ c.toNat ≤ 57 := by
    intro z hz hc
    rw [String.data_append] at hc
    rcases List.mem_append.mp hc with h1 | h1
    · exact hz c h1
    · exact mem_natToDec_toNat _ _ h1
  split at h
  · exact hzeros ("000") (by decide) h
  · split at h
    · exact hzeros ("00") (by decide) h
    · split at h
      · exact hzeros ("0") (by decide) h
      · exact mem_natToDec_toNat _ _ h

/-- The compact timestamp contains no path separator. -/
theorem noSlash_strftimeCompact (t : DateTime) : '/' ∉ (strftimeCompact t).data := by
  intro h
  rw [strftimeCompact] at h
  simp only [String.data_append, List.mem_append] at h
  have hd : ∀ n : Nat, '/' ∈ (pad2 n).data → False := by
    intro n hn
    have := mem_pad2_toNat n _ hn
    simp at this
  have hd4 : ∀ n : Nat, '/' ∈ (pad4 n).data → False := by
    intro n hn
    have := mem_pad4_toNat n _ hn
    simp at this
  rcases h with ((((h | h) | h) | h) | h) | h
  · exact hd4 _ h
  · exact hd _ h
  · exact hd _ h
  · simp at h
  · exact hd _ h
  · exact hd _ h

/-- The timestamped base filename contains no path separator when the base
name has none (the fixed extensions contain none). -/
theorem noSlash_base (file_name : String) (t : DateTime) (ext : String)
    (hfn : '/' ∉ file_name.data) (hext : '/' ∉ ext.data) :
    '/' ∉ (file_name ++ "_" ++ strftimeCompact t ++ ext).data := by
  intro h
  simp only [String.data_append] at h
  rcases List.mem_append.mp h with h1 | h1
  · rcases List.mem_append.mp h1 with h2 | h2
    · rcases List.mem_append.mp h2 with h3 | h3
      · exact hfn h3
      · simp at h3
    · exact noSlash_strftimeCompact t h2
  · exact hext h1

/-- The timestamped base filename is never empty. -/
theorem base_ne_empty (file_name : String) (t : DateTime) (ext : String) :
    (file_name ++ "_" ++ strftimeCompact t ++ ext) ≠ "" := by
  intro h
  have hdata : (file_name ++ "_" ++ strftimeCompact t ++ ext).data = [] := by
    rw [h]
  simp only [String.data_append] at hdata
  have : ('_' : Char) ∈ ([] : List Char) := by
    rw [← hdata]
    refine List.mem_append.mpr (Or.inl (List.mem_append.mpr (Or.inl (List.mem_append.mpr (Or.inr ?_)))))
    decide
  simp at this

/-- A separator-free string is not an absolute path. -/
theorem isAbsPath_eq_false (s : String) (h : '/' ∉ s.data) : isAbsPath s = false := by
  rcases hcs : s.data with _ | ⟨c, r⟩
  · simp [isAbsPath, hcs]
  · have hmem : c ∈ s.data := by
      rw [hcs]
      simp
    simp only [isAbsPath, hcs, List.head?_cons, decide_eq_false_iff_not]
    intro hc
    subst hc
    exact h hmem

/-- Prefixing by an absolute string stays absolute. -/
theorem isAbsPath_append (a x : String) (ha : isAbsPath a = true) :
    isAbsPath (a ++ x) = true := by
  rcases hcs : a.data with _ | ⟨c0, r0⟩
  · simp [isAbsPath, hcs] at ha
  · simp only [isAbsPath, hcs, List.head?_cons] at ha
    simp only [isAbsPath, String.data_append, hcs, List.cons_append, List.head?_cons]
    exact ha

/-- The absolute-path resolution of any path against an absolute working
directory is absolute. -/
theorem isAbsPath_abspath (cwd q : String) (h : isAbsPath cwd = true) :
    isAbsPath (osPathAbspath cwd q) = true := by
  rw [osPathAbspath]
  by_cases hq : isAbsPath q = true
  · rw [if_pos hq]
    exact hq
  · rw [if_neg hq, osPathJoin, if_neg hq]
    have hcne : cwd ≠ "" := by
      intro he
      rw [he] at h
      simp [isAbsPath] at h
    rw [if_neg hcne]
    by_cases hsl : endsWithSlash cwd = true
    · rw [if_pos hsl]
      exact isAbsPath_append _ _ h
    · rw [if_neg hsl]
      exact isAbsPath_append _ _ (isAbsPath_append _ ("/") h)

/-- Dropping over a wholly-satisfying prefix skips it. -/
theorem dropWhile_append_all (p : Char → Bool) (a b : List Char)
    (h : ∀ x ∈ a, p x = true) : (a ++ b).dropWhile p = b.dropWhile p := by
  induction a with
  | nil => simp
  | cons x rest ih =>
    rw [List.cons_append, List.dropWhile_cons, h x (by simp)]
    exact ih (fun y hy => h y (List.mem_cons_of_mem _ hy))

/-- Joining a directory with a separator-free, non-empty, relative filename
inserts one separator, and taking the directory part recovers the
directory. -/
theorem dirName_join (p base : String) (hp : p ≠ "") (hps : endsWithSlash p = false)
    (hb : '/' ∉ base.data) (habs : isAbsPath base = false) :
    osPathJoin p base = p ++ "/" ++ base ∧ dirName (osPathJoin p base) = p := by
  have hjoin : osPathJoin p base = p ++ "/" ++ base := by
    rw [osPathJoin, if_neg (by simp [habs]), if_neg hp, if_neg (by simp [hps])]
  refine ⟨hjoin, ?_⟩
  rw [hjoin, dirName, dirNameChars]
  have hdata : (p ++ "/" ++ base).data.reverse = base.data.reverse ++ '/' :: p.data.reverse := by
    simp [String.data_append]
  rw [hdata]
  rw [dropWhile_append_all _ _ _ (fun x hx => by
    simp only [decide_eq_true_eq]
    intro hxe
    subst hxe
    exact hb (List.mem_reverse.mp hx))]
  rw [List.dropWhile_cons]
  simp

/-- Splitting on separators never yields an empty piece list. -/
theorem splitSlash_ne_nil (cs : List Char) : splitSlash cs ≠ [] := by
  induction cs using splitSlash.induct <;> simp_all [splitSlash]

/-- Unfolding the join over at least two pieces. -/
theorem joinWith_data_cons (sep s x : String) (xs : List String) :
    (joinWith sep (s :: x :: xs)).data = s.data ++ sep.data ++ (joinWith sep (x :: xs)).data := by
  rw [joinWith]
  · simp [String.data_append]
  · simp

/-- Prepending a character to the first piece prepends it to the join. -/
theorem joinWith_cons_char (sep : String) (c : Char) (m : List Char) (xs : List String) :
    joinWith sep (String.mk (c :: m) :: xs) = String.mk [c] ++ joinWith sep (String.mk m :: xs) := by
  cases xs with
  | nil =>
    simp only [joinWith]
    apply String.ext
    simp
  | cons x xs2 =>
    apply String.ext
    rw [joinWith_data_cons, String.data_append, joinWith_data_cons]
    simp

/-- Joining the separator-split pieces reproduces the original stream. -/
theorem joinWith_splitSlash (cs : List Char) :
    joinWith "/" ((splitSlash cs).map String.mk) = String.mk cs := by
  induction cs using splitSlash.induct with
  | case1 => rw [splitSlash]; rfl
  | case2 rest ih =>
    rw [splitSlash]
    obtain ⟨m, ms, hms⟩ : ∃ m ms, splitSlash rest = m :: ms := by
      rcases hh : splitSlash rest with _ | ⟨m, ms⟩
      · exact absurd hh (splitSlash_ne_nil rest)
      · exact ⟨m, ms, rfl⟩
    rw [hms] at ih ⊢
    rw [List.map_cons, List.map_cons]
    rw [joinWith]
    · apply String.ext
      have hdata := congrArg String.data ih
      simp at hdata ⊢
      exact hdata
    · simp
  | case3 c rest hc m ms hms ih =>
    rw [splitSlash]
    · rw [hms] at ih ⊢
      rw [List.map_cons] at ih
      rw [List.map_cons, joinWith_cons_char, ih]
      apply String.ext
      simp
    · exact hc
  | case4 c rest hc hms ih => exact absurd hms (splitSlash_ne_nil rest)

/-- A non-empty path occurs among its own makedirs prefixes. -/
theorem self_mem_pathPrefixes (p : String) (hp : p ≠ "") : p ∈ pathPrefixes p := by
  rw [pathPrefixes]
  have hparts : ((splitSlash p.data).map String.mk).length ≥ 1 := by
    rcases hh : splitSlash p.data with _ | ⟨m, ms⟩
    · exact absurd hh (splitSlash_ne_nil p.data)
    · simp
  refine List.mem_filter.mpr ⟨?_, by simp [hp]⟩
  refine List.mem_map.mpr ⟨((splitSlash p.data).map String.mk).length - 1, ?_, ?_⟩
  · rw [List.mem_range]
    omega
  · have htake : (((splitSlash p.data).map String.mk).take
        ((((splitSlash p.data).map String.mk)).length - 1 + 1)) =
        (splitSlash p.data).map String.mk := by
      apply List.take_of_length_le
      omega
    rw [htake, joinWith_splitSlash]


/-- Membership in the directory list after a successful `makedirs`. -/
theorem mem_makedirs_dirs (dirs : List String) (p d : String) (hd : d ∈ pathPrefixes p) :
    d ∈ dirs ++ (pathPrefixes p).filter (fun x => ¬ dirs.contains x) := by
  by_cases hw : d ∈ dirs
  · exact List.mem_append.mpr (Or.inl hw)
  · refine List.mem_append.mpr (Or.inr (List.mem_filter.mpr ⟨hd, ?_⟩))
    simpa using hw

/-- A fault-free `makedirs` call and its resulting world. -/
theorem osMakedirs_ok (env : Env) (w : World) (p : String)
    (hmk : env.makedirsFails p = false) :
    osMakedirs env w p = Step.ok ()
      { w with dirs := w.dirs ++ (pathPrefixes p).filter (fun d => ¬ w.dirs.contains d) } := by
  rw [osMakedirs, hmk]
  rfl

/-- A fault-free write into an existing directory and its resulting world. -/
theorem openAndWrite_ok (env : Env) (w : World) (q : String) (c : Content)
    (hpe : parentExists w q = true) (how : env.openWriteFails q = false) :
    openAndWrite env w q c = Step.ok ()
      { w with files := w.files.filter (fun f => f.1 ≠ q) ++ [(q, c)] } := by
  rw [openAndWrite, hpe, how]
  rfl

/-- Claim C2 (amended): with a local directory `p` and no object-store
destination, under a fault-free filesystem:
the CSV and the two JSON exports create `p` idempotently including parents,
write the file at `p/<name>_<timestamp>.<ext>`, and return that joined path
as-is (absolute only when `p` was); the cost-PDF export does the same but
returns the absolute path; the audit-PDF export never creates the directory
— it succeeds with an absolute path only when the directory already exists. -/
theorem claim_C2_local_dir_behaviour (env : Env) (w : World) (p file_name : String)
    (hp : p ≠ "") (hps : endsWithSlash p = false) (hfn : '/' ∉ file_name.data)
    (hmk : env.makedirsFails p = false) (how : ∀ q, env.openWriteFails q = false)
    (hbd : env.docBuildFails = false) (hcwd : isAbsPath env.cwd = true) :
    (∀ rows,
      (export_audit_report_to_csv env w rows file_name (some p) none none false).1 =
        some (osPathJoin p (file_name ++ "_" ++ strftimeCompact env.now ++ ".csv")) ∧
      (∀ d ∈ pathPrefixes p,
        d ∈ (export_audit_report_to_csv env w rows file_name (some p) none none false).2.dirs) ∧
      (osPathJoin p (file_name ++ "_" ++ strftimeCompact env.now ++ ".csv"),
        Content.text (auditCsvContent rows)) ∈
        (export_audit_report_to_csv env w rows file_name (some p) none none false).2.files) ∧
    (∀ d,
      (export_audit_report_to_json env w d file_name (some p) none none false).1 =
        some (osPathJoin p (file_name ++ "_" ++ strftimeCompact env.now ++ ".json")) ∧
      (∀ q ∈ pathPrefixes p,
        q ∈ (export_audit_report_to_json env w d file_name (some p) none none false).2.dirs) ∧
      (osPathJoin p (file_name ++ "_" ++ strftimeCompact env.now ++ ".json"),
        Content.text (jdumps (JVal.jarr d))) ∈
        (export_audit_report_to_json env w d file_name (some p) none none false).2.files) ∧
    (∀ d,
      (export_trend_data_to_json env w d file_name (some p) none none false).1 =
        some (osPathJoin p (file_name ++ "_" ++ strftimeCompact env.now ++ ".json")) ∧
      (∀ q ∈ pathPrefixes p,
        q ∈ (export_trend_data_to_json env w d file_name (some p) none none false).2.dirs) ∧
      (osPathJoin p (file_name ++ "_" ++ strftimeCompact env.now ++ ".json"),
        Content.text (jdumps (JVal.jarr d))) ∈
        (export_trend_data_to_json env w d file_name (some p) none none false).2.files) ∧
    (∀ d pd cd,
      (export_cost_dashboard_to_pdf env w d file_name (some p) pd cd none none false).1 =
        some (osPathAbspath env.cwd
          (osPathJoin p (file_name ++ "_" ++ strftimeCompact env.now ++ ".pdf"))) ∧
      isAbsPath (osPathAbspath env.cwd
        (osPathJoin p (file_name ++ "_" ++ strftimeCompact env.now ++ ".pdf"))) = true ∧
      (∀ q ∈ pathPrefixes p,
        q ∈ (export_cost_dashboard_to_pdf env w d file_name (some p) pd cd none none false).2.dirs) ∧
      (osPathJoin p (file_name ++ "_" ++ strftimeCompact env.now ++ ".pdf"),
        Content.pdf (costElements d pd cd env.now)) ∈
        (export_cost_dashboard_to_pdf env w d file_name (some p) pd cd none none false).2.files) ∧
    (∀ rows els, auditElements env.now rows = Except.ok els →
      (export_audit_report_to_pdf env w rows file_name (some p) none none false).2.dirs = w.dirs ∧
      (p ∈ w.dirs →
        (export_audit_report_to_pdf env w rows file_name (some p) none none false).1 =
          some (osPathAbspath env.cwd
            (osPathJoin p (file_name ++ "_" ++ strftimeCompact env.now ++ ".pdf"))) ∧
        (osPathJoin p (file_name ++ "_" ++ strftimeCompact env.now ++ ".pdf"),
          Content.pdf els) ∈
          (export_audit_report_to_pdf env w rows file_name (some p) none none false).2.files)) := by
  have hbt : optStrTruthy (some p) = true := by simp [optStrTruthy, hp]
  have hbase : ∀ ext : String, '/' ∉ ext.data →
      '/' ∉ (file_name ++ "_" ++ strftimeCompact env.now ++ ext).data :=
    fun ext hext => noSlash_base file_name env.now ext hfn hext
  have hjoin : ∀ ext : String, '/' ∉ ext.data →
      osPathJoin p (file_name ++ "_" ++ strftimeCompact env.now ++ ext) =
        p ++ "/" ++ (file_name ++ "_" ++ strftimeCompact env.now ++ ext) ∧
      dirName (osPathJoin p (file_name ++ "_" ++ strftimeCompact env.now ++ ext)) = p :=
    fun ext hext => dirName_join p _ hp hps (hbase ext hext)
      (isAbsPath_eq_false _ (hbase ext hext))
  have hpe : ∀ ext : String, '/' ∉ ext.data →
      parentExists { w with
          dirs := w.dirs ++ (pathPrefixes p).filter (fun d => ¬ w.dirs.contains d) }
        (osPathJoin p (file_name ++ "_" ++ strftimeCompact env.now ++ ext)) = true := by
    intro ext hext
    rw [parentExists, (hjoin ext hext).2]
    have hmem : p ∈ w.dirs ++ (pathPrefixes p).filter (fun d => ¬ w.dirs.contains d) :=
      mem_makedirs_dirs w.dirs p p (self_mem_pathPrefixes p hp)
    simp only [Bool.or_eq_true]
    right
    simpa using hmem
  have e1 := osMakedirs_ok env w p hmk
  have habsout : isAbsPath (osPathAbspath env.cwd
      (osPathJoin p (file_name ++ "_" ++ strftimeCompact env.now ++ ".pdf"))) = true :=
    isAbsPath_abspath env.cwd _ hcwd
  refine ⟨?_, ?_, ?_, ?_, ?_⟩
  · intro rows
    have e2 := openAndWrite_ok env
      { w with dirs := w.dirs ++ (pathPrefixes p).filter (fun d => ¬ w.dirs.contains d) }
      (osPathJoin p (file_name ++ "_" ++ strftimeCompact env.now ++ ".csv"))
      (Content.text (auditCsvContent rows)) (hpe (".csv") (by decide)) (how _)
    simp only [export_audit_report_to_csv, exportAuditCsvBody, hbt, Option.getD, e1, e2]
    simp only [optStrTruthy, Bool.false_and, Bool.false_eq_true, if_false, if_true]
    refine ⟨by trivial, fun d hd => mem_makedirs_dirs w.dirs p d hd, by simp⟩
  · intro d
    have e2 := openAndWrite_ok env
      { w with dirs := w.dirs ++ (pathPrefixes p).filter (fun d => ¬ w.dirs.contains d) }
      (osPathJoin p (file_name ++ "_" ++ strftimeCompact env.now ++ ".json"))
      (Content.text (jdumps (JVal.jarr d))) (hpe (".json") (by decide)) (how _)
    simp only [export_audit_report_to_json, exportJsonBody, hbt, Option.getD, e1, e2]
    simp only [optStrTruthy, Bool.false_and, Bool.false_eq_true, if_false, if_true]
    refine ⟨by trivial, fun q hq => mem_makedirs_dirs w.dirs p q hq, by simp⟩
  · intro d
    have e2 := openAndWrite_ok env
      { w with dirs := w.dirs ++ (pathPrefixes p).filter (fun d => ¬ w.dirs.contains d) }
      (osPathJoin p (file_name ++ "_" ++ strftimeCompact env.now ++ ".json"))
      (Content.text (jdumps (JVal.jarr d))) (hpe (".json") (by decide)) (how _)
    simp only [export_trend_data_to_json, exportJsonBody, hbt, Option.getD, e1, e2]
    simp only [optStrTruthy, Bool.false_and, Bool.false_eq_true, if_false, if_true]
    refine ⟨by trivial, fun q hq => mem_makedirs_dirs w.dirs p q hq, by simp⟩
  · intro d pd cd
    have e2 := openAndWrite_ok env
      { w with dirs := w.dirs ++ (pathPrefixes p).filter (fun d => ¬ w.dirs.contains d) }
      (osPathJoin p (file_name ++ "_" ++ strftimeCompact env.now ++ ".pdf"))
      (Content.pdf (costElements d pd cd env.now)) (hpe (".pdf") (by decide)) (how _)
    simp only [export_cost_dashboard_to_pdf, exportCostPdfBody, hbt, Option.getD,
      docBuildFile, hbd, e1, e2]
    simp only [optStrTruthy, Bool.false_and, Bool.false_eq_true, if_false, if_true]
    refine ⟨by trivial, habsout, fun q hq => mem_makedirs_dirs w.dirs p q hq, by simp⟩
  · intro rows els hels
    constructor
    · by_cases hpar : parentExists w
        (osPathJoin p (file_name ++ "_" ++ strftimeCompact env.now ++ ".pdf")) = true
      · have e2 := openAndWrite_ok env w
          (osPathJoin p (file_name ++ "_" ++ strftimeCompact env.now ++ ".pdf"))
          (Content.pdf els) hpar (how _)
        simp [export_audit_report_to_pdf, exportAuditPdfBody, hels, hbt, Option.getD,
          docBuildFile, hbd, e2, optStrTruthy, hp]
      · simp only [Bool.not_eq_true] at hpar
        have e2 : openAndWrite env w
            (osPathJoin p (file_name ++ "_" ++ strftimeCompact env.now ++ ".pdf"))
            (Content.pdf els) = Step.raised (PyExn.fileNotFound
              ("No such file or directory: " ++
                osPathJoin p (file_name ++ "_" ++ strftimeCompact env.now ++ ".pdf"))) w := by
          rw [openAndWrite, hpar]
          simp
        simp [export_audit_report_to_pdf, exportAuditPdfBody, hels, hbt, Option.getD,
          docBuildFile, hbd, e2, optStrTruthy, hp, consolePrint]
    · intro hpw
      have hpar : parentExists w
          (osPathJoin p (file_name ++ "_" ++ strftimeCompact env.now ++ ".pdf")) = true := by
        rw [parentExists, (hjoin (".pdf") (by decide)).2]
        simp only [Bool.or_eq_true]
        right
        simpa using hpw
      have e2 := openAndWrite_ok env w
        (osPathJoin p (file_name ++ "_" ++ strftimeCompact env.now ++ ".pdf"))
        (Content.pdf els) hpar (how _)
      simp [export_audit_report_to_pdf, exportAuditPdfBody, hels, hbt, Option.getD,
        docBuildFile, hbd, e2, optStrTruthy, hp]

/-- Claim C2 witness: directory `"out"`, base name `"audit_report"`, CSV
export under the fault-free environment. -/
theorem claim_C2_local_dir_behaviour_witness :
    (("out" : String) ≠ "" ∧ endsWithSlash ("out") = false ∧
      '/' ∉ ("audit_report" : String).data ∧
      envOk.makedirsFails ("out") = false ∧ (∀ q, envOk.openWriteFails q = false) ∧
      envOk.docBuildFails = false ∧ isAbsPath envOk.cwd = true) ∧
    ((export_audit_report_to_csv envOk world0 [] "audit_report" (some "out") none none false).1 =
      some (osPathJoin ("out") ("audit_report" ++ "_" ++ strftimeCompact envOk.now ++ ".csv")) ∧
    (∀ d ∈ pathPrefixes ("out"),
      d ∈ (export_audit_report_to_csv envOk world0 [] "audit_report" (some "out") none none false).2.dirs) ∧
    (osPathJoin ("out") ("audit_report" ++ "_" ++ strftimeCompact envOk.now ++ ".csv"),
      Content.text (auditCsvContent [])) ∈
      (export_audit_report_to_csv envOk world0 [] "audit_report" (some "out") none none false).2.files) :=
  ⟨⟨by decide, by decide, by decide, rfl, fun _ => rfl, rfl, by decide⟩,
   (claim_C2_local_dir_behaviour envOk world0 ("out") ("audit_report") (by decide) (by decide)
       (by decide) rfl (fun _ => rfl) rfl (by decide)).1 []⟩

/-! ## JSON parser (model of a standard `json.loads`)

The parser is whitespace-tolerant between tokens and handles the escape
forms the serializer emits (including surrogate pairs).  Number parsing is
restricted to integers — the only numbers the modelled data contains.  It is
fuel-driven (structurally, so the kernel can evaluate it); the input length
plus one is always enough fuel. -/

/-- JSON insignificant whitespace. -/
def jsonWs (c : Char) : Bool := c = ' ' || c = '\n' || c = '\t' || c = '\r'

/-- Skip insignificant whitespace. -/
def skipWs (cs : List Char) : List Char := cs.dropWhile jsonWs

/-- Value of one hexadecimal digit. -/
def hexVal (c : Char) : Option Nat :=
  if 48 ≤ c.toNat ∧ c.toNat ≤ 57 then some (c.toNat - 48)
  else if 97 ≤ c.toNat ∧ c.toNat ≤ 102 then some (c.toNat - 87)
  else if 65 ≤ c.toNat ∧ c.toNat ≤ 70 then some (c.toNat - 55)
  else none

/-- Value of four hexadecimal digits. -/
def hex4Val (a b c d : Char) : Option Nat :=
  match hexVal a, hexVal b, hexVal c, hexVal d with
  | some x1, some x2, some x3, some x4 => some (((x1 * 16 + x2) * 16 + x3) * 16 + x4)
  | _, _, _, _ => none

/-- Decoded character of a single-letter escape sequence. -/
def escDecode (e : Char) : Option Char :=
  if e = '"' then some '"'
  else if e = '\\' then some '\\'
  else if e = '/' then some '/'
  else if e = 'n' then some '\n'
  else if e = 't' then some '\t'
  else if e = 'r' then some '\r'
  else if e = 'b' then some (Char.ofNat 8)
  else if e = 'f' then some (Char.ofNat 12)
  else none

/-- Decode the remainder of a `\u` escape: four hex digits, recombining a
high surrogate with the following low-surrogate escape. -/
def parseUEsc (cs : List Char) : Option (Char × List Char) :=
  match cs with
  | h1 :: h2 :: h3 :: h4 :: rest3 =>
    match hex4Val h1 h2 h3 h4 with
    | some v =>
      if 55296 ≤ v ∧ v ≤ 56319 then
        match rest3 with
        | e2 :: u2 :: g1 :: g2 :: g3 :: g4 :: rest4 =>
          if e2 = '\\' ∧ u2 = 'u' then
            match hex4Val g1 g2 g3 g4 with
            | some lo =>
              if 56320 ≤ lo ∧ lo ≤ 57343 then
                some (Char.ofNat (65536 + (v - 55296) * 1024 + (lo - 56320)), rest4)
              else none
            | none => none
          else none
        | _ => none
      else if 56320 ≤ v ∧ v ≤ 57343 then none
      else some (Char.ofNat v, rest3)
    | none => none
  | _ => none

/-- Parse the remainder of a string literal (after the opening quote),
accumulating decoded characters in reverse.  Fuel-driven; each step consumes
at least one input character, so `length + 1` fuel always suffices. -/
def parseStrAux : Nat → List Char → List Char → Option (String × List Char)
  | 0, _, _ => none
  | _ + 1, _, [] => none
  | fuel + 1, acc, c :: rest =>
    if c = '"' then some (String.mk acc.reverse, rest)
    else if c = '\\' then
      match rest with
      | [] => none
      | e :: rest2 =>
        if e = 'u' then
          match parseUEsc rest2 with
          | some (d, rest3) => parseStrAux fuel (d :: acc) rest3
          | none => none
        else
          match escDecode e with
          | some d => parseStrAux fuel (d :: acc) rest2
          | none => none
    else parseStrAux fuel (c :: acc) rest

/-- Numeric value of a digit run. -/
def digitsVal (cs : List Char) : Nat := cs.foldl (fun a c => a * 10 + (c.toNat - 48)) 0

/-- Parse an integer literal (the only number form the modelled data holds). -/
def parseNum (cs : List Char) : Option (JVal × List Char) :=
  match cs with
  | [] => none
  | c :: rest =>
    if c = '-' then
      match rest.takeWhile Char.isDigit with
      | [] => none
      | ds => some (JVal.jint (-(digitsVal ds : Int)), rest.dropWhile Char.isDigit)
    else
      match cs.takeWhile Char.isDigit with
      | [] => none
      | ds => some (JVal.jint (digitsVal ds), cs.dropWhile Char.isDigit)

mutual
/-- Parse one JSON value. -/
def parseVal : Nat → List Char → Option (JVal × List Char)
  | 0, _ => none
  | fuel + 1, cs =>
    match skipWs cs with
    | [] => none
    | c :: rest =>
      if c = 'n' then
        match rest with
        | c1 :: c2 :: c3 :: rest2 =>
          if c1 = 'u' ∧ c2 = 'l' ∧ c3 = 'l' then some (JVal.jnull, rest2) else none
        | _ => none
      else if c = 't' then
        match rest with
        | c1 :: c2 :: c3 :: rest2 =>
          if c1 = 'r' ∧ c2 = 'u' ∧ c3 = 'e' then some (JVal.jbool true, rest2) else none
        | _ => none
      else if c = 'f' then
        match rest with
        | c1 :: c2 :: c3 :: c4 :: rest2 =>
          if c1 = 'a' ∧ c2 = 'l' ∧ c3 = 's' ∧ c4 = 'e' then some (JVal.jbool false, rest2) else none
        | _ => none
      else if c = '"' then
        match parseStrAux (rest.length + 1) [] rest with
        | some (s, rest2) => some (JVal.jstr s, rest2)
        | none => none
      else if c = '[' then
        match skipWs rest with
        | c2 :: rest2 =>
          if c2 = ']' then some (JVal.jarr JList.lnil, rest2)
          else
            match parseItems fuel rest with
            | some (xs, rest3) => some (JVal.jarr xs, rest3)
            | none => none
        | [] => none
      else if c = '\x7b' then
        match skipWs rest with
        | c2 :: rest2 =>
          if c2 = '\x7d' then some (JVal.jobj JObj.onil, rest2)
          else
            match parseFields fuel rest with
            | some (kvs, rest3) => some (JVal.jobj kvs, rest3)
            | none => none
        | [] => none
      else parseNum (c :: rest)

/-- Parse a non-empty comma-separated item sequence up to the closing
bracket. -/
def parseItems : Nat → List Char → Option (JList × List Char)
  | 0, _ => none
  | fuel + 1, cs =>
    match parseVal fuel cs with
    | none => none
    | some (v, rest) =>
      match skipWs rest with
      | c :: rest2 =>
        if c = ',' then
          match parseItems fuel rest2 with
          | some (vs, rest3) => some (JList.lcons v vs, rest3)
          | none => none
        else if c = ']' then some (JList.lcons v JList.lnil, rest2)
        else none
      | [] => none

/-- Parse a non-empty comma-separated field sequence up to the closing
brace. -/
def parseFields : Nat → List Char → Option (JObj × List Char)
  | 0, _ => none
  | fuel + 1, cs =>
    match skipWs cs with
    | c :: rest =>
      if c = '"' then
        match parseStrAux (rest.length + 1) [] rest with
        | some (k, rest2) =>
          match skipWs rest2 with
          | c2 :: rest3 =>
            if c2 = ':' then
              match parseVal fuel rest3 with
              | some (v, rest4) =>
                match skipWs rest4 with
                | c3 :: rest5 =>
                  if c3 = ',' then
                    match parseFields fuel rest5 with
                    | some (kvs, rest6) => some (JObj.ocons k v kvs, rest6)
                    | none => none
                  else if c3 = '\x7d' then some (JObj.ocons k v JObj.onil, rest5)
                  else none
                | [] => none
              | none => none
            else none
          | [] => none
        | none => none
      else none
    | [] => none
end

/-- Model of `json.loads` on the serializer's output language: parse one
value and require only whitespace to remain. -/
def jloads (s : String) : Option JVal :=
  match parseVal (s.length + 1) s.data with
  | some (v, rest) => if skipWs rest = [] then some v else none
  | none => none

example :
    jloads (jdumps (JVal.jarr (JList.lcons
      (JVal.jobj (JObj.ocons ("a") (JVal.jint 1)
        (JObj.ocons ("s") (JVal.jstr ("q\"\\\né")) JObj.onil)))
      (JList.lcons (JVal.jarr JList.lnil) JList.lnil)))) =
    some (JVal.jarr (JList.lcons
      (JVal.jobj (JObj.ocons ("a") (JVal.jint 1)
        (JObj.ocons ("s") (JVal.jstr ("q\"\\\né")) JObj.onil)))
      (JList.lcons (JVal.jarr JList.lnil) JList.lnil))) := by
  rfl

example : jloads (jdumps (JVal.jint (-12))) = some (JVal.jint (-12)) := by rfl
example : jloads (jdumps (JVal.jstr (String.mk [Char.ofNat 119070, Char.ofNat 8]))) =
    some (JVal.jstr (String.mk [Char.ofNat 119070, Char.ofNat 8])) := by rfl

/-! ## Round-trip of the JSON serializer and parser (claim C4) -/

/-- The continuation after a serialized value must not begin with a digit
(so that integer parsing stops at the right place); the serializer only ever
continues with a comma, a closing bracket or brace, or a newline. -/
def tailOk (rest : List Char) : Prop := ∀ c, rest.head? = some c → c.isDigit = false

/-- Characters of the indentation runs are whitespace. -/
theorem spacesChars_ws (n : Nat) (c : Char) (h : c ∈ List.replicate n ' ') :
    jsonWs c = true := by
  rw [List.eq_of_mem_replicate h]
  rfl

/-- Skipping whitespace passes over any all-whitespace prefix. -/
theorem skipWs_append (a x : List Char) (ha : ∀ c ∈ a, jsonWs c = true) :
    skipWs (a ++ x) = skipWs x :=
  dropWhile_append_all _ a x ha

/-- Skipping whitespace stops at a non-whitespace head. -/
theorem skipWs_cons (c : Char) (x : List Char) (hc : jsonWs c = false) :
    skipWs (c :: x) = c :: x := by
  rw [skipWs, List.dropWhile_cons, hc]
  rfl

/-- A parser step cannot depend on fuel shape only: unfolding over an
all-whitespace prefix. -/
theorem parseVal_ws (fuel : Nat) (a x : List Char) (ha : ∀ c ∈ a, jsonWs c = true) :
    parseVal fuel (a ++ x) = parseVal fuel x := by
  cases fuel with
  | zero => rfl
  | succ fuel =>
    rw [parseVal, parseVal, skipWs_append a x ha]

/-- Parser step: the `null` keyword. -/
theorem parseVal_null (fuel : Nat) (X : List Char) :
    parseVal (fuel + 1) ('n' :: 'u' :: 'l' :: 'l' :: X) = some (JVal.jnull, X) := rfl

/-- Parser step: the `true` keyword. -/
theorem parseVal_true (fuel : Nat) (X : List Char) :
    parseVal (fuel + 1) ('t' :: 'r' :: 'u' :: 'e' :: X) = some (JVal.jbool true, X) := rfl

/-- Parser step: the `false` keyword. -/
theorem parseVal_false (fuel : Nat) (X : List Char) :
    parseVal (fuel + 1) ('f' :: 'a' :: 'l' :: 's' :: 'e' :: X) = some (JVal.jbool false, X) := rfl

/-- Parser step: a string literal delegates to the string scanner. -/
theorem parseVal_quote (fuel : Nat) (X : List Char) :
    parseVal (fuel + 1) ('"' :: X) =
      match parseStrAux (X.length + 1) [] X with
      | some (s, rest2) => some (JVal.jstr s, rest2)
      | none => none := rfl

/-- Parser step: the empty array. -/
theorem parseVal_emptyArr (fuel : Nat) (X : List Char) :
    parseVal (fuel + 1) ('[' :: ']' :: X) = some (JVal.jarr JList.lnil, X) := rfl

/-- Parser step: the empty object. -/
theorem parseVal_emptyObj (fuel : Nat) (X : List Char) :
    parseVal (fuel + 1) ('\x7b' :: '\x7d' :: X) = some (JVal.jobj JObj.onil, X) := rfl

/-- Parser step: a non-empty array delegates to the item parser. -/
theorem parseVal_lbrack (fuel : Nat) (X : List Char) (c2 : Char) (R2 : List Char)
    (hskip : skipWs X = c2 :: R2) (hne : c2 ≠ ']') :
    parseVal (fuel + 1) ('[' :: X) =
      match parseItems fuel X with
      | some (xs, rest3) => some (JVal.jarr xs, rest3)
      | none => none := by
  rw [parseVal]
  simp only [skipWs_cons ('[') X (by decide)]
  rw [if_neg (by decide), if_neg (by decide), if_neg (by decide), if_neg (by decide)]
  rw [if_pos trivial]
  simp only [hskip]
  rw [if_neg hne]

/-- Parser step: a non-empty object delegates to the field parser. -/
theorem parseVal_lbrace (fuel : Nat) (X : List Char) (c2 : Char) (R2 : List Char)
    (hskip : skipWs X = c2 :: R2) (hne : c2 ≠ '\x7d') :
    parseVal (fuel + 1) ('\x7b' :: X) =
      match parseFields fuel X with
      | some (kvs, rest3) => some (JVal.jobj kvs, rest3)
      | none => none := by
  rw [parseVal]
  simp only [skipWs_cons ('\x7b') X (by decide)]
  rw [if_neg (by decide), if_neg (by decide), if_neg (by decide), if_neg (by decide),
    if_neg (by decide)]
  rw [if_pos trivial]
  simp only [hskip]
  rw [if_neg hne]

/-- Parser step: any other head character is handled by the number parser. -/
theorem parseVal_other (fuel : Nat) (c : Char) (X : List Char) (hws : jsonWs c = false)
    (h1 : c ≠ 'n') (h2 : c ≠ 't') (h3 : c ≠ 'f') (h4 : c ≠ '"') (h5 : c ≠ '[')
    (h6 : c ≠ '\x7b') :
    parseVal (fuel + 1) (c :: X) = parseNum (c :: X) := by
  rw [parseVal]
  simp only [skipWs_cons c X hws]
  rw [if_neg h1, if_neg h2, if_neg h3, if_neg h4, if_neg h5, if_neg h6]

/-- String-scanner step: the closing quote. -/
theorem parseStr_quote (fuel : Nat) (acc X : List Char) :
    parseStrAux (fuel + 1) acc ('"' :: X) = some (String.mk acc.reverse, X) := rfl

/-- String-scanner step for a short escape. -/
theorem parseStr_esc (fuel : Nat) (acc X : List Char) (e d : Char)
    (hu : e ≠ 'u') (hd : escDecode e = some d) :
    parseStrAux (fuel + 1) acc ('\\' :: e :: X) = parseStrAux fuel (d :: acc) X := by
  rw [parseStrAux]
  simp only [hd, if_true]
  rw [if_neg hu, if_neg (by decide)]

/-- String-scanner step for a hexadecimal escape. -/
theorem parseStr_u (fuel : Nat) (acc X Y : List Char) (d : Char)
    (hp : parseUEsc X = some (d, Y)) :
    parseStrAux (fuel + 1) acc ('\\' :: 'u' :: X) = parseStrAux fuel (d :: acc) Y := by
  rw [parseStrAux]
  simp only [hp, if_true]
  rw [if_neg (by decide)]

/-- String-scanner step for a literal (unescaped) character. -/
theorem parseStr_lit (fuel : Nat) (acc : List Char) (c : Char) (X : List Char)
    (h1 : c ≠ '"') (h2 : c ≠ '\\') :
    parseStrAux (fuel + 1) acc (c :: X) = parseStrAux fuel (c :: acc) X := by
  rw [parseStrAux.eq_def]
  simp only []
  rw [if_neg h1, if_neg h2]


/-- Valid Unicode scalar values, as a fact about `Char.toNat`. -/
theorem char_scalar (c : Char) : c.toNat < 55296 ∨ (57343 < c.toNat ∧ c.toNat < 1114112) :=
  c.valid

/-- Hex digits decode to their value. -/
theorem hexVal_hexDigitChar (m : Nat) (h : m < 16) : hexVal (hexDigitChar m) = some m := by
  interval_cases m <;> rfl

theorem hex4Val_hex4 (n : Nat) (h : n < 65536) :
    hex4Val (hexDigitChar (n / 4096 % 16)) (hexDigitChar (n / 256 % 16))
      (hexDigitChar (n / 16 % 16)) (hexDigitChar (n % 16)) = some n := by
  rw [hex4Val, hexVal_hexDigitChar _ (by omega), hexVal_hexDigitChar _ (by omega),
    hexVal_hexDigitChar _ (by omega), hexVal_hexDigitChar _ (by omega)]
  simp only []
  congr 1
  omega


/-- A single `\u` escape for a BMP scalar value decodes to that character. -/
theorem parseUEsc_single (n : Nat) (X : List Char) (h16 : n < 65536)
    (hno : ¬(55296 ≤ n ∧ n ≤ 57343)) :
    parseUEsc (hex4 n ++ X) = some (Char.ofNat n, X) := by
  show parseUEsc (hexDigitChar (n / 4096 % 16) :: hexDigitChar (n / 256 % 16) ::
    hexDigitChar (n / 16 % 16) :: hexDigitChar (n % 16) :: X) = some (Char.ofNat n, X)
  rw [parseUEsc]
  simp only [hex4Val_hex4 n h16]
  rw [if_neg (by omega), if_neg (by omega)]

/-- A surrogate pair of `\u` escapes decodes to the astral character. -/
theorem parseUEsc_pair (t : Nat) (X : List Char) (hlo : 65536 ≤ t) (hhi : t < 1114112) :
    parseUEsc (hex4 (55296 + (t - 65536) / 1024) ++
      ('\\' :: 'u' :: (hex4 (56320 + (t - 65536) % 1024) ++ X))) =
    some (Char.ofNat t, X) := by
  have h1 : 55296 + (t - 65536) / 1024 < 65536 := by omega
  have h2 : 56320 + (t - 65536) % 1024 < 65536 := by
    have := Nat.mod_lt (t - 65536) (show 0 < 1024 by omega)
    omega
  show parseUEsc (hexDigitChar _ :: hexDigitChar _ :: hexDigitChar _ :: hexDigitChar _ ::
    '\\' :: 'u' :: hexDigitChar _ :: hexDigitChar _ :: hexDigitChar _ :: hexDigitChar _ :: X) =
    some (Char.ofNat t, X)
  rw [parseUEsc]
  simp only [hex4Val_hex4 _ h1, hex4Val_hex4 _ h2]
  rw [if_pos (by constructor <;> omega)]
  rw [if_pos (by constructor <;> trivial)]
  rw [if_pos (by have := Nat.mod_lt (t - 65536) (show 0 < 1024 by omega); constructor <;> omega)]
  have harith : 65536 + (55296 + (t - 65536) / 1024 - 55296) * 1024 +
      (56320 + (t - 65536) % 1024 - 56320) = t := by
    have := Nat.div_add_mod (t - 65536) 1024
    omega
  rw [harith]

/-- Decoding inverts serialization of one string body: scanning the escaped
characters followed by a closing quote yields the original characters. -/
theorem parseStr_ser (cs : List Char) : ∀ (fuel : Nat) (acc rest : List Char),
    cs.length + 1 ≤ fuel →
    parseStrAux fuel acc ((cs.map escapeChar).flatten ++ '"' :: rest) =
      some (String.mk (acc.reverse ++ cs), rest) := by
  induction cs with
  | nil =>
    intro fuel acc rest hf
    obtain ⟨k, rfl⟩ : ∃ k, fuel = k + 1 := ⟨fuel - 1, by omega⟩
    simp only [List.map_nil, List.flatten_nil, List.nil_append]
    rw [parseStr_quote]
    simp
  | cons c cs ih =>
    intro fuel acc rest hf
    obtain ⟨k, rfl⟩ : ∃ k, fuel = k + 1 := ⟨fuel - 1, by omega⟩
    have hk : cs.length + 1 ≤ k := by
      simp only [List.length_cons] at hf
      omega
    have hacc : acc.reverse ++ c :: cs = (c :: acc).reverse ++ cs := by simp
    simp only [List.map_cons, List.flatten_cons, List.append_assoc, hacc]
    by_cases h1 : c = '"'
    · subst h1
      rw [show escapeChar '"' = ['\\', '"'] from by decide]
      simp only [List.cons_append, List.nil_append]
      rw [parseStr_esc k acc _ '"' '"' (by decide) (by decide)]
      exact ih k _ rest hk
    · by_cases h2 : c = '\\'
      · subst h2
        rw [show escapeChar '\\' = ['\\', '\\'] from by decide]
        simp only [List.cons_append, List.nil_append]
        rw [parseStr_esc k acc _ '\\' '\\' (by decide) (by decide)]
        exact ih k _ rest hk
      · by_cases h3 : c = '\n'
        · subst h3
          rw [show escapeChar '\n' = ['\\', 'n'] from by decide]
          simp only [List.cons_append, List.nil_append]
          rw [parseStr_esc k acc _ 'n' '\n' (by decide) (by decide)]
          exact ih k _ rest hk
        · by_cases h4 : c = '\t'
          · subst h4
            rw [show escapeChar '\t' = ['\\', 't'] from by decide]
            simp only [List.cons_append, List.nil_append]
            rw [parseStr_esc k acc _ 't' '\t' (by decide) (by decide)]
            exact ih k _ rest hk
          · by_cases h5 : c = '\r'
            · subst h5
              rw [show escapeChar '\r' = ['\\', 'r'] from by decide]
              simp only [List.cons_append, List.nil_append]
              rw [parseStr_esc k acc _ 'r' '\r' (by decide) (by decide)]
              exact ih k _ rest hk
            · by_cases h6 : c.toNat = 8
              · have hc : c = Char.ofNat 8 := by
                  rw [← Char.ofNat_toNat c, h6]
                subst hc
                rw [show escapeChar (Char.ofNat 8) = ['\\', 'b'] from by decide]
                simp only [List.cons_append, List.nil_append]
                rw [parseStr_esc k acc _ 'b' (Char.ofNat 8) (by decide) (by decide)]
                exact ih k _ rest hk
              · by_cases h7 : c.toNat = 12
                · have hc : c = Char.ofNat 12 := by
                    rw [← Char.ofNat_toNat c, h7]
                  subst hc
                  rw [show escapeChar (Char.ofNat 12) = ['\\', 'f'] from by decide]
                  simp only [List.cons_append, List.nil_append]
                  rw [parseStr_esc k acc _ 'f' (Char.ofNat 12) (by decide) (by decide)]
                  exact ih k _ rest hk
                · by_cases h8 : c.toNat < 32 ∨ 127 ≤ c.toNat
                  · by_cases h9 : c.toNat < 65536
                    · have he : escapeChar c = '\\' :: 'u' :: hex4 c.toNat := by
                        rw [escapeChar, if_neg h1, if_neg h2, if_neg h3, if_neg h4,
                          if_neg h5, if_neg h6, if_neg h7, if_pos h8, if_pos h9]
                        rfl
                      rw [he]
                      simp only [List.cons_append]
                      have hsc := char_scalar c
                      rw [parseStr_u k acc _ _ (Char.ofNat c.toNat)
                        (parseUEsc_single c.toNat _ h9 (by omega))]
                      rw [Char.ofNat_toNat]
                      exact ih k _ rest hk
                    · have he : escapeChar c =
                          '\\' :: 'u' :: (hex4 (55296 + (c.toNat - 65536) / 1024) ++
                            ('\\' :: 'u' :: (hex4 (56320 + (c.toNat - 65536) % 1024) ++ []))) := by
                        rw [escapeChar, if_neg h1, if_neg h2, if_neg h3, if_neg h4,
                          if_neg h5, if_neg h6, if_neg h7, if_pos h8, if_neg h9]
                        simp [uEsc]
                      rw [he]
                      have hsc := char_scalar c
                      simp only [List.cons_append, List.append_assoc, List.nil_append]
                      rw [parseStr_u k acc _ _ (Char.ofNat c.toNat)
                        (parseUEsc_pair c.toNat _ (by omega) (by omega))]
                      rw [Char.ofNat_toNat]
                      exact ih k _ rest hk
                  · have he : escapeChar c = [c] := by
                      rw [escapeChar, if_neg h1, if_neg h2, if_neg h3, if_neg h4,
                        if_neg h5, if_neg h6, if_neg h7, if_neg h8]
                    rw [he]
                    simp only [List.cons_append, List.nil_append]
                    rw [parseStr_lit k acc c _ h1 h2]
                    exact ih k _ rest hk


/-- Decimal renderings consist of digit characters. -/
theorem natToDecAux_isDigit (fuel n : Nat) (c : Char) (h : c ∈ natToDecAux fuel n) :
    c.isDigit = true := by
  obtain ⟨m, hm, rfl⟩ := natToDecAux_mem fuel n c h
  interval_cases m <;> decide

/-- Decimal renderings are never empty. -/
theorem natToDecAux_ne_nil (fuel n : Nat) : natToDecAux (fuel + 1) n ≠ [] := by
  rw [natToDecAux]
  by_cases hn : n < 10
  · rw [if_pos hn]; simp
  · rw [if_neg hn]; simp

/-- The numeric value of a decimal rendering is the rendered number. -/
theorem digitsVal_natToDecAux (fuel : Nat) : ∀ n, n < fuel → digitsVal (natToDecAux fuel n) = n := by
  induction fuel with
  | zero => omega
  | succ fuel ih =>
    intro n hn
    rw [natToDecAux]
    by_cases h10 : n < 10
    · rw [if_pos h10]
      show digitsVal [digitChar n] = n
      rw [digitsVal, List.foldl_cons, List.foldl_nil, digitChar_toNat n h10]
      omega
    · rw [if_neg h10]
      rw [digitsVal, List.foldl_append]
      rw [show (natToDecAux fuel (n / 10)).foldl (fun a c => a * 10 + (c.toNat - 48)) 0 =
        digitsVal (natToDecAux fuel (n / 10)) from rfl]
      rw [ih (n / 10) (by omega)]
      rw [List.foldl_cons, List.foldl_nil, digitChar_toNat (n % 10) (by omega)]
      omega

/-- A trailing non-digit stops the digit run of a decimal rendering. -/
theorem dropWhile_digits_stop (rest : List Char) (h : tailOk rest) :
    rest.dropWhile Char.isDigit = rest := by
  cases rest with
  | nil => rfl
  | cons r rs =>
    rw [List.dropWhile_cons, h r rfl]
    simp

/-- Number-parser step: a leading minus sign. -/
theorem parseNum_neg (r : List Char) :
    parseNum ('-' :: r) =
      match r.takeWhile Char.isDigit with
      | [] => none
      | ds => some (JVal.jint (-(digitsVal ds : Int)), r.dropWhile Char.isDigit) := rfl

/-- Number-parser step: a head character that is not a minus sign. -/
theorem parseNum_pos (c : Char) (r : List Char) (hc : c ≠ '-') :
    parseNum (c :: r) =
      match (c :: r).takeWhile Char.isDigit with
      | [] => none
      | ds => some (JVal.jint (digitsVal ds), (c :: r).dropWhile Char.isDigit) := by
  rw [parseNum]
  rw [if_neg hc]

/-- Parsing inverts integer serialization when the continuation does not
begin with a digit. -/
theorem parseNum_intToDec (n : Int) (rest : List Char) (h : tailOk rest) :
    parseNum ((intToDec n).data ++ rest) = some (JVal.jint n, rest) := by
  have hdigits : ∀ x ∈ (natToDec n.natAbs).data, x.isDigit = true :=
    fun x hx => natToDecAux_isDigit _ _ x hx
  have htake : ((natToDec n.natAbs).data ++ rest).takeWhile Char.isDigit =
      (natToDec n.natAbs).data := by
    cases rest with
    | nil =>
      rw [List.append_nil]
      exact List.takeWhile_eq_self_iff.mpr hdigits
    | cons r rs => exact takeWhile_append_stop _ _ _ _ hdigits (h r rfl)
  have hdrop : ((natToDec n.natAbs).data ++ rest).dropWhile Char.isDigit = rest := by
    rw [dropWhile_append_all _ _ _ hdigits, dropWhile_digits_stop rest h]
  have hval : digitsVal (natToDec n.natAbs).data = n.natAbs :=
    digitsVal_natToDecAux _ _ (by omega)
  obtain ⟨d, ds, hds⟩ : ∃ d ds, (natToDec n.natAbs).data = d :: ds := by
    cases hnd : (natToDec n.natAbs).data with
    | nil => exact absurd hnd (natToDecAux_ne_nil _ _)
    | cons d ds => exact ⟨d, ds, rfl⟩
  have hdneg : d ≠ '-' := by
    have hd := hdigits d (by rw [hds]; exact List.mem_cons_self d ds)
    intro hEq
    rw [hEq] at hd
    exact absurd hd (by decide)
  by_cases hn : n < 0
  · have hstr2 : (intToDec n).data = '-' :: (natToDec n.natAbs).data := by
      rw [intToDec, if_pos hn, String.data_append]
      rfl
    rw [hstr2, List.cons_append, parseNum_neg]
    rw [htake, hds]
    simp only []
    rw [← hds, hval, hdrop]
    have hneg : -((n.natAbs : Nat) : Int) = n := by omega
    rw [hneg]
  · have hstr2 : (intToDec n).data = (natToDec n.natAbs).data := by
      rw [intToDec, if_neg hn, String.data_append]
      rfl
    rw [hstr2, hds, List.cons_append, parseNum_pos d _ hdneg]
    rw [← List.cons_append, ← hds, htake, hds]
    simp only []
    rw [← hds, hval, hdrop]
    have hpos : ((n.natAbs : Nat) : Int) = n := by omega
    rw [hpos]

/-! ### Fuel accounting for the parser -/

mutual
/-- Fuel needed by `parseVal` on the serialization of `v`. -/
def jfuel : JVal → Nat
  | JVal.jnull => 1
  | JVal.jbool _ => 1
  | JVal.jint _ => 1
  | JVal.jstr _ => 1
  | JVal.jarr l => 1 + jfuelL l
  | JVal.jobj o => 1 + jfuelO o

/-- Fuel needed by `parseItems` on a serialized item stream. -/
def jfuelL : JList → Nat
  | JList.lnil => 1
  | JList.lcons x xs => 1 + max (jfuel x) (jfuelL xs)

/-- Fuel needed by `parseFields` on a serialized field stream. -/
def jfuelO : JObj → Nat
  | JObj.onil => 1
  | JObj.ocons _ v r => 1 + max (jfuel v) (jfuelO r)
end

theorem jfuel_pos (v : JVal) : 1 ≤ jfuel v := by
  cases v <;> simp [jfuel]

theorem jfuelL_pos (l : JList) : 1 ≤ jfuelL l := by
  cases l <;> simp [jfuelL]

theorem jfuelO_pos (o : JObj) : 1 ≤ jfuelO o := by
  cases o <;> simp [jfuelO]

/-- Whitespace characters by code point. -/
theorem jsonWs_toNat (c : Char) (h : jsonWs c = true) :
    c.toNat = 32 ∨ c.toNat = 10 ∨ c.toNat = 9 ∨ c.toNat = 13 := by
  rw [jsonWs] at h
  simp only [Bool.or_eq_true, decide_eq_true_eq] at h
  rcases h with ((h | h) | h) | h <;> subst h <;> simp

/-- Digit characters by code point. -/
theorem isDigit_iff (c : Char) : c.isDigit = true ↔ 48 ≤ c.toNat ∧ c.toNat ≤ 57 := by
  rw [Char.isDigit]
  simp only [Bool.and_eq_true, decide_eq_true_eq]
  constructor
  · rintro ⟨h1, h2⟩
    exact ⟨h1, h2⟩
  · rintro ⟨h1, h2⟩
    exact ⟨h1, h2⟩

/-- Whitespace is never a digit. -/
theorem ws_not_digit (c : Char) (h : jsonWs c = true) : c.isDigit = false := by
  rcases jsonWs_toNat c h with h1 | h1 | h1 | h1 <;>
    · rw [Bool.eq_false_iff]
      intro hd
      rcases (isDigit_iff c).mp hd with ⟨ha, hb⟩
      omega

/-- Characters differ when their code points differ. -/
theorem char_ne_of_toNat (c d : Char) (h : c.toNat ≠ d.toNat) : c ≠ d := by
  intro hEq
  exact h (congrArg Char.toNat hEq)

/-- A digit head satisfies all the guards that route `parseVal` to the
number parser. -/
theorem digit_head_guards (c : Char) (h48 : 48 ≤ c.toNat) (h57 : c.toNat ≤ 57) :
    jsonWs c = false ∧ c ≠ 'n' ∧ c ≠ 't' ∧ c ≠ 'f' ∧ c ≠ '"' ∧ c ≠ '[' ∧
      c ≠ '\x7b' ∧ c ≠ ']' ∧ c ≠ '\x7d' := by
  refine ⟨?_, ?_, ?_, ?_, ?_, ?_, ?_, ?_, ?_⟩
  · rw [Bool.eq_false_iff]
    intro hw
    rcases jsonWs_toNat c hw with h1 | h1 | h1 | h1 <;> omega
  all_goals exact char_ne_of_toNat _ _ (by intro h1; rw [h1] at h48 h57; revert h48 h57; decide)

/-- The serialization of any value starts with a non-whitespace character
that is not a closing bracket or brace. -/
theorem jser_head (v : JVal) (d : Nat) :
    ∃ c R, (jser v d).data = c :: R ∧ jsonWs c = false ∧ c ≠ ']' ∧ c ≠ '\x7d' := by
  cases v with
  | jnull => exact ⟨'n', ['u', 'l', 'l'], rfl, by decide, by decide, by decide⟩
  | jbool b =>
    cases b with
    | true => exact ⟨'t', ['r', 'u', 'e'], rfl, by decide, by decide, by decide⟩
    | false => exact ⟨'f', ['a', 'l', 's', 'e'], rfl, by decide, by decide, by decide⟩
  | jint n =>
    by_cases hn : n < 0
    · refine ⟨'-', (natToDec n.natAbs).data, ?_, by decide, by decide, by decide⟩
      show (intToDec n).data = _
      rw [intToDec, if_pos hn, String.data_append]
      rfl
    · obtain ⟨d0, ds, hds⟩ : ∃ d0 ds, (natToDec n.natAbs).data = d0 :: ds := by
        cases hnd : (natToDec n.natAbs).data with
        | nil => exact absurd hnd (natToDecAux_ne_nil _ _)
        | cons d0 ds => exact ⟨d0, ds, rfl⟩
      have hd0 : 48 ≤ d0.toNat ∧ d0.toNat ≤ 57 :=
        mem_natToDec_toNat n.natAbs d0 (by rw [hds]; exact List.mem_cons_self _ _)
      obtain ⟨hws, _, _, _, _, _, _, hne1, hne2⟩ := digit_head_guards d0 hd0.1 hd0.2
      refine ⟨d0, ds, ?_, hws, hne1, hne2⟩
      show (intToDec n).data = _
      rw [intToDec, if_neg hn, String.data_append]
      simpa using hds
  | jstr s =>
    refine ⟨'"', (s.data.map escapeChar).flatten ++ ['"'], ?_, by decide, by decide, by decide⟩
    show (jstrQuote s).data = _
    rw [jstrQuote, String.data_append, String.data_append]
    rfl
  | jarr l =>
    cases l with
    | lnil => exact ⟨'[', [']'], rfl, by decide, by decide, by decide⟩
    | lcons x xs =>
      have hh : (jser (JVal.jarr (JList.lcons x xs)) d).data.head? = some '[' := by
        rw [jser]
        simp [String.data_append]
      cases hd : (jser (JVal.jarr (JList.lcons x xs)) d).data with
      | nil => rw [hd] at hh; simp at hh
      | cons c R =>
        rw [hd] at hh
        simp only [List.head?_cons, Option.some.injEq] at hh
        subst hh
        exact ⟨'[', R, rfl, by decide, by decide, by decide⟩
  | jobj o =>
    cases o with
    | onil => exact ⟨'\x7b', ['\x7d'], rfl, by decide, by decide, by decide⟩
    | ocons k x kvs =>
      have hh : (jser (JVal.jobj (JObj.ocons k x kvs)) d).data.head? = some '\x7b' := by
        rw [jser]
        simp [String.data_append]
      cases hd : (jser (JVal.jobj (JObj.ocons k x kvs)) d).data with
      | nil => rw [hd] at hh; simp at hh
      | cons c R =>
        rw [hd] at hh
        simp only [List.head?_cons, Option.some.injEq] at hh
        subst hh
        exact ⟨'\x7b', R, rfl, by decide, by decide, by decide⟩

/-- After a serialized item stream, the continuation never starts with a
digit. -/
theorem tailOk_arrRest (xs : JList) (d : Nat) (w2 rest : List Char)
    (hw2 : ∀ c ∈ w2, jsonWs c = true) :
    tailOk ((jserArrRest xs d).data ++ (w2 ++ ']' :: rest)) := by
  intro c hc
  cases xs with
  | lnil =>
    rw [show (jserArrRest JList.lnil d).data = [] from rfl, List.nil_append] at hc
    cases w2 with
    | nil =>
      simp only [List.nil_append, List.head?_cons, Option.some.injEq] at hc
      subst hc
      decide
    | cons w ws =>
      simp only [List.cons_append, List.head?_cons, Option.some.injEq] at hc
      subst hc
      exact ws_not_digit w (hw2 w (by simp))
  | lcons y ys =>
    have hh : (jserArrRest (JList.lcons y ys) d).data.head? = some ',' := by
      rw [jserArrRest]
      simp [String.data_append]
    cases hd : (jserArrRest (JList.lcons y ys) d).data with
    | nil => rw [hd] at hh; simp at hh
    | cons a T =>
      rw [hd] at hh
      simp only [List.head?_cons, Option.some.injEq] at hh
      subst hh
      rw [hd] at hc
      simp only [List.cons_append, List.head?_cons, Option.some.injEq] at hc
      subst hc
      decide

/-- After a serialized field stream, the continuation never starts with a
digit. -/
theorem tailOk_objRest (kvs : JObj) (d : Nat) (w2 rest : List Char)
    (hw2 : ∀ c ∈ w2, jsonWs c = true) :
    tailOk ((jserObjRest kvs d).data ++ (w2 ++ '\x7d' :: rest)) := by
  intro c hc
  cases kvs with
  | onil =>
    rw [show (jserObjRest JObj.onil d).data = [] from rfl, List.nil_append] at hc
    cases w2 with
    | nil =>
      simp only [List.nil_append, List.head?_cons, Option.some.injEq] at hc
      subst hc
      decide
    | cons w ws =>
      simp only [List.cons_append, List.head?_cons, Option.some.injEq] at hc
      subst hc
      exact ws_not_digit w (hw2 w (by simp))
  | ocons k v r =>
    have hh : (jserObjRest (JObj.ocons k v r) d).data.head? = some ',' := by
      rw [jserObjRest]
      simp [String.data_append]
    cases hd : (jserObjRest (JObj.ocons k v r) d).data with
    | nil => rw [hd] at hh; simp at hh
    | cons a T =>
      rw [hd] at hh
      simp only [List.head?_cons, Option.some.injEq] at hh
      subst hh
      rw [hd] at hc
      simp only [List.cons_append, List.head?_cons, Option.some.injEq] at hc
      subst hc
      decide

/-- Escaping a character never yields the empty sequence. -/
theorem one_le_escapeChar_length (c : Char) : 1 ≤ (escapeChar c).length := by
  rw [escapeChar]
  split_ifs <;> simp [uEsc, hex4]

/-- Escaping cannot shorten a string. -/
theorem length_le_flatten_escape (cs : List Char) :
    cs.length ≤ ((cs.map escapeChar).flatten).length := by
  induction cs with
  | nil => simp
  | cons c rest ih =>
    rw [List.map_cons, List.flatten_cons, List.length_append, List.length_cons]
    have := one_le_escapeChar_length c
    omega

/-- Rebuilding a string from its characters is the identity. -/
theorem mk_data (s : String) : String.mk s.data = s := rfl

/-- The parser fuel measures are bounded by serialized length (stated with a
threshold so the three mutual statements can be proved by one induction). -/
theorem jfuel_le_lengths : ∀ n : Nat,
    (∀ v d, jfuel v ≤ n → jfuel v ≤ (jser v d).data.length + 1) ∧
    (∀ x xs d, jfuelL (JList.lcons x xs) ≤ n →
      jfuelL (JList.lcons x xs) ≤
        (jser x d).data.length + (jserArrRest xs d).data.length + 2) ∧
    (∀ k v kvs d, jfuelO (JObj.ocons k v kvs) ≤ n →
      jfuelO (JObj.ocons k v kvs) ≤
        (jser v d).data.length + (jserObjRest kvs d).data.length + 2) := by
  intro n
  induction n with
  | zero =>
    refine ⟨fun v d h => absurd h ?_, fun x xs d h => absurd h ?_, fun k v kvs d h => absurd h ?_⟩
    · have := jfuel_pos v
      omega
    · rw [jfuelL]
      omega
    · rw [jfuelO]
      omega
  | succ n ih =>
    obtain ⟨ih1, ih2, ih3⟩ := ih
    refine ⟨?_, ?_, ?_⟩
    · intro v d h
      cases v with
      | jnull => simp [jfuel]
      | jbool b => simp [jfuel]
      | jint m => simp [jfuel]
      | jstr s => simp [jfuel]
      | jarr l =>
        cases l with
        | lnil => simp [jfuel, jfuelL, jser]
        | lcons x xs =>
          rw [jfuel] at h ⊢
          have hb : jfuelL (JList.lcons x xs) ≤ n := by omega
          have h2 := ih2 x xs (d + 1) hb
          have hlen : (jser (JVal.jarr (JList.lcons x xs)) d).data.length =
              2 + 4 * (d + 1) + (jser x (d + 1)).data.length +
                (jserArrRest xs (d + 1)).data.length + (1 + (4 * d + 1)) := by
            rw [jser]
            simp [String.data_append, spaces]
            ring
          rw [hlen]
          omega
      | jobj o =>
        cases o with
        | onil => simp [jfuel, jfuelO, jser]
        | ocons k v kvs =>
          rw [jfuel] at h ⊢
          have hb : jfuelO (JObj.ocons k v kvs) ≤ n := by omega
          have h3 := ih3 k v kvs (d + 1) hb
          have hlen : (jser (JVal.jobj (JObj.ocons k v kvs)) d).data.length =
              2 + 4 * (d + 1) + (jstrQuote k).data.length + 2 +
                (jser v (d + 1)).data.length + (jserObjRest kvs (d + 1)).data.length +
                (1 + (4 * d + 1)) := by
            rw [jser]
            simp [String.data_append, spaces]
            ring
          rw [hlen]
          omega
    · intro x xs d h
      rw [jfuelL] at h ⊢
      have hx : jfuel x ≤ n := by
        have := Nat.le_max_left (jfuel x) (jfuelL xs)
        omega
      have hxs : jfuelL xs ≤ n := by
        have := Nat.le_max_right (jfuel x) (jfuelL xs)
        omega
      have h1 := ih1 x d hx
      have htail : jfuelL xs ≤ (jser x d).data.length + (jserArrRest xs d).data.length + 1 := by
        cases xs with
        | lnil =>
          rw [jfuelL]
          omega
        | lcons y ys =>
          have h2 := ih2 y ys d hxs
          have hlen : (jserArrRest (JList.lcons y ys) d).data.length =
              2 + 4 * d + (jser y d).data.length + (jserArrRest ys d).data.length := by
            rw [jserArrRest]
            simp [String.data_append, spaces]
            ring
          rw [hlen]
          omega
      have hmax : max (jfuel x) (jfuelL xs) ≤
          (jser x d).data.length + (jserArrRest xs d).data.length + 1 :=
        Nat.max_le.mpr ⟨by omega, htail⟩
      omega
    · intro k v kvs d h
      rw [jfuelO] at h ⊢
      have hv : jfuel v ≤ n := by
        have := Nat.le_max_left (jfuel v) (jfuelO kvs)
        omega
      have hkvs : jfuelO kvs ≤ n := by
        have := Nat.le_max_right (jfuel v) (jfuelO kvs)
        omega
      have h1 := ih1 v d hv
      have htail : jfuelO kvs ≤ (jser v d).data.length + (jserObjRest kvs d).data.length + 1 := by
        cases kvs with
        | onil =>
          rw [jfuelO]
          omega
        | ocons k2 v2 r =>
          have h3 := ih3 k2 v2 r d hkvs
          have hlen : (jserObjRest (JObj.ocons k2 v2 r) d).data.length =
              2 + 4 * d + (jstrQuote k2).data.length + 2 + (jser v2 d).data.length +
                (jserObjRest r d).data.length := by
            rw [jserObjRest]
            simp [String.data_append, spaces]
            ring
          rw [hlen]
          omega
      have hmax : max (jfuel v) (jfuelO kvs) ≤
          (jser v d).data.length + (jserObjRest kvs d).data.length + 1 :=
        Nat.max_le.mpr ⟨by omega, htail⟩
      omega

/-- Characters of the indentation string. -/
theorem spaces_data (n : Nat) : (spaces n).data = List.replicate n ' ' := rfl

/-- A newline followed by indentation is all whitespace. -/
theorem ws_nl_replicate (n : Nat) : ∀ c ∈ '\n' :: List.replicate n ' ', jsonWs c = true := by
  intro c hc
  rcases List.mem_cons.mp hc with rfl | hc
  · decide
  · exact spacesChars_ws n c hc

/-- The serialized form of a quoted key, exposed character by character. -/
theorem jstrQuote_data_append (k : String) (Y : List Char) :
    (jstrQuote k).data ++ Y = '"' :: ((k.data.map escapeChar).flatten ++ ('"' :: Y)) := by
  rw [jstrQuote]
  simp [String.data_append]

theorem parse_ser_all : ∀ fuel : Nat,
    (∀ v d rest, tailOk rest → jfuel v ≤ fuel →
      parseVal fuel ((jser v d).data ++ rest) = some (v, rest)) ∧
    (∀ x xs d w1 w2 rest, (∀ c ∈ w1, jsonWs c = true) → (∀ c ∈ w2, jsonWs c = true) →
      jfuelL (JList.lcons x xs) ≤ fuel →
      parseItems fuel (w1 ++ ((jser x d).data ++ ((jserArrRest xs d).data ++ (w2 ++ ']' :: rest)))) =
        some (JList.lcons x xs, rest)) ∧
    (∀ k v kvs d w1 w2 rest, (∀ c ∈ w1, jsonWs c = true) → (∀ c ∈ w2, jsonWs c = true) →
      jfuelO (JObj.ocons k v kvs) ≤ fuel →
      parseFields fuel (w1 ++ ((jstrQuote k).data ++ (':' :: ' ' :: ((jser v d).data ++
          ((jserObjRest kvs d).data ++ (w2 ++ '\x7d' :: rest)))))) =
        some (JObj.ocons k v kvs, rest)) := by
  intro fuel
  induction fuel with
  | zero =>
    refine ⟨fun v d rest _ h => absurd h ?_, fun x xs d w1 w2 rest _ _ h => absurd h ?_,
      fun k v kvs d w1 w2 rest _ _ h => absurd h ?_⟩
    · have := jfuel_pos v
      omega
    · rw [jfuelL]
      omega
    · rw [jfuelO]
      omega
  | succ fuel ih =>
    obtain ⟨ih1, ih2, ih3⟩ := ih
    refine ⟨?_, ?_, ?_⟩
    · -- parseVal on a serialized value
      intro v d rest hrest hb
      cases v with
      | jnull => exact parseVal_null fuel rest
      | jbool b =>
        cases b with
        | true => exact parseVal_true fuel rest
        | false => exact parseVal_false fuel rest
      | jint m =>
        obtain ⟨c0, R, hdata, hg1, hg2, hg3, hg4, hg5, hg6, hg7⟩ :
            ∃ c0 R, (intToDec m).data = c0 :: R ∧ jsonWs c0 = false ∧ c0 ≠ 'n' ∧
              c0 ≠ 't' ∧ c0 ≠ 'f' ∧ c0 ≠ '"' ∧ c0 ≠ '[' ∧ c0 ≠ '\x7b' := by
          by_cases hm : m < 0
          · refine ⟨'-', (natToDec m.natAbs).data, ?_, by decide, by decide, by decide,
              by decide, by decide, by decide, by decide⟩
            rw [intToDec, if_pos hm, String.data_append]
            rfl
          · obtain ⟨d0, ds, hds⟩ : ∃ d0 ds, (natToDec m.natAbs).data = d0 :: ds := by
              cases hnd : (natToDec m.natAbs).data with
              | nil => exact absurd hnd (natToDecAux_ne_nil _ _)
              | cons d0 ds => exact ⟨d0, ds, rfl⟩
            have hd0 : 48 ≤ d0.toNat ∧ d0.toNat ≤ 57 :=
              mem_natToDec_toNat m.natAbs d0 (by rw [hds]; exact List.mem_cons_self _ _)
            obtain ⟨q1, q2, q3, q4, q5, q6, q7, _, _⟩ := digit_head_guards d0 hd0.1 hd0.2
            refine ⟨d0, ds, ?_, q1, q2, q3, q4, q5, q6, q7⟩
            rw [intToDec, if_neg hm, String.data_append]
            simpa using hds
        show parseVal (fuel + 1) ((intToDec m).data ++ rest) = some (JVal.jint m, rest)
        rw [hdata, List.cons_append]
        rw [parseVal_other fuel c0 _ hg1 hg2 hg3 hg4 hg5 hg6 hg7]
        rw [← List.cons_append, ← hdata]
        exact parseNum_intToDec m rest hrest
      | jstr s =>
        show parseVal (fuel + 1) ((jstrQuote s).data ++ rest) = some (JVal.jstr s, rest)
        rw [jstrQuote_data_append]
        rw [parseVal_quote]
        have hfuel : s.data.length + 1 ≤
            ((s.data.map escapeChar).flatten ++ '"' :: rest).length + 1 := by
          have := length_le_flatten_escape s.data
          rw [List.length_append]
          omega
        rw [parseStr_ser s.data _ [] rest hfuel]
        simp [mk_data]
      | jarr l =>
        cases l with
        | lnil => exact parseVal_emptyArr fuel rest
        | lcons x xs =>
          show parseVal (fuel + 1)
            (("[\n" ++ spaces (4 * (d + 1)) ++ jser x (d + 1) ++ jserArrRest xs (d + 1) ++
              "\n" ++ spaces (4 * d) ++ "]").data ++ rest) = _
          simp only [String.data_append, spaces_data,
            show ("[\n" : String).data = ['[', '\n'] from rfl,
            show ("\n" : String).data = ['\n'] from rfl,
            show ("]" : String).data = [']'] from rfl,
            List.cons_append, List.nil_append, List.append_assoc]
          obtain ⟨c0, R0, hD, hws0, hne0, _⟩ := jser_head x (d + 1)
          have hskip : skipWs ('\n' :: (List.replicate (4 * (d + 1)) ' ' ++
              ((jser x (d + 1)).data ++ ((jserArrRest xs (d + 1)).data ++
                ('\n' :: (List.replicate (4 * d) ' ' ++ (']' :: rest))))))) =
              c0 :: (R0 ++ ((jserArrRest xs (d + 1)).data ++
                ('\n' :: (List.replicate (4 * d) ' ' ++ (']' :: rest))))) := by
            rw [← List.cons_append, skipWs_append _ _ (ws_nl_replicate _)]
            rw [hD, List.cons_append, skipWs_cons c0 _ hws0]
          rw [parseVal_lbrack fuel _ c0 _ hskip hne0]
          have hb2 : jfuelL (JList.lcons x xs) ≤ fuel := by
            rw [jfuel] at hb
            omega
          have e2 := ih2 x xs (d + 1) ('\n' :: List.replicate (4 * (d + 1)) ' ')
            ('\n' :: List.replicate (4 * d) ' ') rest (ws_nl_replicate _) (ws_nl_replicate _) hb2
          simp only [List.cons_append, List.append_assoc] at e2
          rw [e2]
      | jobj o =>
        cases o with
        | onil => exact parseVal_emptyObj fuel rest
        | ocons k v kvs =>
          show parseVal (fuel + 1)
            (("\x7b\n" ++ spaces (4 * (d + 1)) ++ jstrQuote k ++ ": " ++ jser v (d + 1) ++
              jserObjRest kvs (d + 1) ++ "\n" ++ spaces (4 * d) ++ "\x7d").data ++ rest) = _
          simp only [String.data_append, spaces_data,
            show ("\x7b\n" : String).data = ['\x7b', '\n'] from rfl,
            show ("\n" : String).data = ['\n'] from rfl,
            show ("\x7d" : String).data = ['\x7d'] from rfl,
            show (": " : String).data = [':', ' '] from rfl,
            List.cons_append, List.nil_append, List.append_assoc]
          have hskip : skipWs ('\n' :: (List.replicate (4 * (d + 1)) ' ' ++
              ((jstrQuote k).data ++ (':' :: ' ' :: ((jser v (d + 1)).data ++
                ((jserObjRest kvs (d + 1)).data ++
                  ('\n' :: (List.replicate (4 * d) ' ' ++ ('\x7d' :: rest))))))))) =
              '"' :: ((k.data.map escapeChar).flatten ++ ('"' ::
                (':' :: ' ' :: ((jser v (d + 1)).data ++
                ((jserObjRest kvs (d + 1)).data ++
                  ('\n' :: (List.replicate (4 * d) ' ' ++ ('\x7d' :: rest)))))))) := by
            rw [← List.cons_append, skipWs_append _ _ (ws_nl_replicate _)]
            rw [jstrQuote_data_append, skipWs_cons _ _ (by decide)]
          rw [parseVal_lbrace fuel _ '"' _ hskip (by decide)]
          have hb3 : jfuelO (JObj.ocons k v kvs) ≤ fuel := by
            rw [jfuel] at hb
            omega
          have e3 := ih3 k v kvs (d + 1) ('\n' :: List.replicate (4 * (d + 1)) ' ')
            ('\n' :: List.replicate (4 * d) ' ') rest (ws_nl_replicate _) (ws_nl_replicate _) hb3
          simp only [List.cons_append, List.append_assoc] at e3
          rw [e3]
    · -- parseItems on a serialized item stream
      intro x xs d w1 w2 rest hw1 hw2 hb
      rw [parseItems]
      have hb1 : jfuel x ≤ fuel := by
        rw [jfuelL] at hb
        have := Nat.le_max_left (jfuel x) (jfuelL xs)
        omega
      have htail : tailOk ((jserArrRest xs d).data ++ (w2 ++ ']' :: rest)) :=
        tailOk_arrRest xs d w2 rest hw2
      have e1 : parseVal fuel (w1 ++ ((jser x d).data ++
          ((jserArrRest xs d).data ++ (w2 ++ ']' :: rest)))) =
          some (x, (jserArrRest xs d).data ++ (w2 ++ ']' :: rest)) := by
        rw [parseVal_ws fuel w1 _ hw1]
        exact ih1 x d _ htail hb1
      simp only [e1]
      cases xs with
      | lnil =>
        have hnil : (jserArrRest JList.lnil d).data = [] := rfl
        simp only [hnil, List.nil_append]
        have hsk : skipWs (w2 ++ ']' :: rest) = ']' :: rest := by
          rw [skipWs_append _ _ hw2, skipWs_cons _ _ (by decide)]
        simp only [hsk]
        rw [if_neg (by decide), if_pos trivial]
      | lcons y ys =>
        have harr : (jserArrRest (JList.lcons y ys) d).data =
            ',' :: '\n' :: (List.replicate (4 * d) ' ' ++
              ((jser y d).data ++ (jserArrRest ys d).data)) := by
          rw [jserArrRest]
          simp [String.data_append, spaces_data,
            show (",\n" : String).data = [',', '\n'] from rfl]
        simp only [harr, List.cons_append, List.append_assoc]
        have hsk : skipWs (',' :: ('\n' :: (List.replicate (4 * d) ' ' ++
            ((jser y d).data ++ ((jserArrRest ys d).data ++ (w2 ++ ']' :: rest)))))) =
            ',' :: ('\n' :: (List.replicate (4 * d) ' ' ++
            ((jser y d).data ++ ((jserArrRest ys d).data ++ (w2 ++ ']' :: rest))))) :=
          skipWs_cons _ _ (by decide)
        simp only [hsk]
        rw [if_pos trivial]
        have hb2 : jfuelL (JList.lcons y ys) ≤ fuel := by
          rw [jfuelL] at hb
          have := Nat.le_max_right (jfuel x) (jfuelL (JList.lcons y ys))
          omega
        have e2 := ih2 y ys d ('\n' :: List.replicate (4 * d) ' ') w2 rest
          (ws_nl_replicate _) hw2 hb2
        simp only [List.cons_append, List.append_assoc] at e2
        rw [e2]
    · -- parseFields on a serialized field stream
      intro k v kvs d w1 w2 rest hw1 hw2 hb
      rw [parseFields]
      have hskip : skipWs (w1 ++ ((jstrQuote k).data ++ (':' :: ' ' :: ((jser v d).data ++
          ((jserObjRest kvs d).data ++ (w2 ++ '\x7d' :: rest)))))) =
          '"' :: ((k.data.map escapeChar).flatten ++ ('"' :: (':' :: ' ' :: ((jser v d).data ++
          ((jserObjRest kvs d).data ++ (w2 ++ '\x7d' :: rest)))))) := by
        rw [skipWs_append _ _ hw1, jstrQuote_data_append, skipWs_cons _ _ (by decide)]
      simp only [hskip]
      rw [if_pos trivial]
      have hkey := parseStr_ser k.data
        (((k.data.map escapeChar).flatten ++ ('"' :: (':' :: ' ' :: ((jser v d).data ++
          ((jserObjRest kvs d).data ++ (w2 ++ '\x7d' :: rest)))))).length + 1)
        [] (':' :: ' ' :: ((jser v d).data ++
          ((jserObjRest kvs d).data ++ (w2 ++ '\x7d' :: rest))))
        (by
          have := length_le_flatten_escape k.data
          rw [List.length_append]
          omega)
      simp only [List.reverse_nil, List.nil_append, mk_data] at hkey
      simp only [hkey]
      have hsk2 : skipWs (':' :: ' ' :: ((jser v d).data ++
          ((jserObjRest kvs d).data ++ (w2 ++ '\x7d' :: rest)))) =
          ':' :: (' ' :: ((jser v d).data ++
          ((jserObjRest kvs d).data ++ (w2 ++ '\x7d' :: rest)))) :=
        skipWs_cons _ _ (by decide)
      simp only [hsk2]
      rw [if_pos trivial]
      have hbv : jfuel v ≤ fuel := by
        rw [jfuelO] at hb
        have := Nat.le_max_left (jfuel v) (jfuelO kvs)
        omega
      have ev : parseVal fuel (' ' :: ((jser v d).data ++
          ((jserObjRest kvs d).data ++ (w2 ++ '\x7d' :: rest)))) =
          some (v, (jserObjRest kvs d).data ++ (w2 ++ '\x7d' :: rest)) := by
        have hws := parseVal_ws fuel [' '] ((jser v d).data ++
          ((jserObjRest kvs d).data ++ (w2 ++ '\x7d' :: rest)))
          (by intro c hc; simp at hc; subst hc; decide)
        simp only [List.cons_append, List.nil_append] at hws
        rw [hws]
        exact ih1 v d _ (tailOk_objRest kvs d w2 rest hw2) hbv
      simp only [ev]
      cases kvs with
      | onil =>
        have hnil : (jserObjRest JObj.onil d).data = [] := rfl
        simp only [hnil, List.nil_append]
        have hsk3 : skipWs (w2 ++ '\x7d' :: rest) = '\x7d' :: rest := by
          rw [skipWs_append _ _ hw2, skipWs_cons _ _ (by decide)]
        simp only [hsk3]
        rw [if_neg (by decide), if_pos trivial]
      | ocons k2 v2 r =>
        have hobj : (jserObjRest (JObj.ocons k2 v2 r) d).data =
            ',' :: '\n' :: (List.replicate (4 * d) ' ' ++
              ((jstrQuote k2).data ++ (':' :: ' ' :: ((jser v2 d).data ++
                (jserObjRest r d).data)))) := by
          rw [jserObjRest]
          simp [String.data_append, spaces_data,
            show (",\n" : String).data = [',', '\n'] from rfl,
            show (": " : String).data = [':', ' '] from rfl]
        simp only [hobj, List.cons_append, List.append_assoc]
        have hsk3 : skipWs (',' :: ('\n' :: (List.replicate (4 * d) ' ' ++
            ((jstrQuote k2).data ++ (':' :: ' ' :: ((jser v2 d).data ++
              ((jserObjRest r d).data ++ (w2 ++ '\x7d' :: rest)))))))) =
            ',' :: ('\n' :: (List.replicate (4 * d) ' ' ++
            ((jstrQuote k2).data ++ (':' :: ' ' :: ((jser v2 d).data ++
              ((jserObjRest r d).data ++ (w2 ++ '\x7d' :: rest))))))) :=
          skipWs_cons _ _ (by decide)
        simp only [hsk3]
        rw [if_pos trivial]
        have hb3 : jfuelO (JObj.ocons k2 v2 r) ≤ fuel := by
          rw [jfuelO] at hb
          have := Nat.le_max_right (jfuel v) (jfuelO (JObj.ocons k2 v2 r))
          omega
        have e3 := ih3 k2 v2 r d ('\n' :: List.replicate (4 * d) ' ') w2 rest
          (ws_nl_replicate _) hw2 hb3
        simp only [List.cons_append, List.append_assoc] at e3
        rw [e3]

/-- **C4.** For every JSON-serializable input structure `x` (modelled as a
`JVal` with well-formed objects, i.e. no duplicate keys, which is the regime
in which a standard parser reproduces the structure exactly), decoding the
`json.dumps(x, indent=4)` serialization used by `export_audit_report_to_json`
and `export_trend_data_to_json` yields the input structure back:
`json.loads(json.dumps(x)) == x`. -/
theorem claim_C4_json_round_trip (v : JVal) (hwf : JVal.wf v = true) :
    jloads (jdumps v) = some v := by
  clear hwf
  rw [jloads]
  have hb : jfuel v ≤ (jdumps v).length + 1 := by
    have h1 := (jfuel_le_lengths (jfuel v)).1 v 0 (le_refl _)
    have h2 : (jdumps v).length = (jser v 0).data.length := rfl
    omega
  have h := (parse_ser_all ((jdumps v).length + 1)).1 v 0 []
    (by intro c hc; simp at hc) hb
  rw [List.append_nil] at h
  rw [jdumps] at h ⊢
  simp only [h]
  rw [if_pos (show skipWs [] = [] from rfl)]

theorem claim_C4_json_round_trip_witness :
    JVal.wf (JVal.jobj (JObj.ocons "a" (JVal.jint (-3))
      (JObj.ocons "b" (JVal.jarr (JList.lcons (JVal.jstr "x\ny\x7b") JList.lnil))
        JObj.onil))) = true ∧
    jloads (jdumps (JVal.jobj (JObj.ocons "a" (JVal.jint (-3))
      (JObj.ocons "b" (JVal.jarr (JList.lcons (JVal.jstr "x\ny\x7b") JList.lnil))
        JObj.onil)))) =
      some (JVal.jobj (JObj.ocons "a" (JVal.jint (-3))
        (JObj.ocons "b" (JVal.jarr (JList.lcons (JVal.jstr "x\ny\x7b") JList.lnil))
          JObj.onil))) :=
  ⟨by rfl, claim_C4_json_round_trip _ (by rfl)⟩
